import Mathlib

/-!
Verification development for the symbolic-compression codec.

JS strings are modelled as `List Char` (UTF-16 code units map to `Char.toNat`
for every character the codec uses), JS integer arithmetic as `ℕ`/`ℤ` with
explicit 32-bit wrapping where the source relies on it, and JS floating-point
values as real numbers.  Fallible code returns `Except`/`Option`.
-/

namespace SymbolicCompression

/-- UTF-16 code unit of a character, as used by `charCodeAt` in the source. -/
def charCode (c : Char) : ℕ := c.toNat

/-- Weighted positional sum `Σ payload[i]·(i+1)` starting at offset `i`. -/
def weightedSumFrom : List Char → ℕ → ℕ
  | [], _ => 0
  | c :: rest, i => charCode c * (i + 1) + weightedSumFrom rest (i + 1)

/-- `calculateChecksum` (identical in `SymbolValidator`, the decoder and the
encoder's `generateReedSolomonParity`): `chr(65 + (Σ payload[i]·(i+1)) mod 26)`. -/
def calculateChecksum (payload : List Char) : Char :=
  Char.ofNat (65 + weightedSumFrom payload 0 % 26)

/-- `PerceptualAlchemyDecoder.verifyChecksum`. -/
def verifyChecksum (payload : List Char) (checksum : Char) : Bool :=
  calculateChecksum payload == checksum

/-- The decoder's `commonErrors` table of visually confusable substitutions. -/
def commonErrors (c : Char) : Option Char :=
  if c = '0' then some 'O'
  else if c = 'O' then some '0'
  else if c = '1' then some 'I'
  else if c = 'I' then some '1'
  else if c = '5' then some 'S'
  else if c = 'S' then some '5'
  else none

/-- Loop body of `PerceptualAlchemyDecoder.attemptErrorCorrection`, scanning
positions `i, i+1, …` (the structural `fuel` argument bounds the remaining
iterations of the `for` loop).  Note the source re-verifies the trial
substitution against `this.calculateChecksum(corrected)` — a checksum
recomputed from the corrected string itself, not the received checksum
symbol. -/
def attemptCorrectionFrom (code : List Char) : ℕ → ℕ → Option (List Char)
  | _, 0 => none
  | i, fuel + 1 =>
      if h : i < code.length then
        match commonErrors (code.get ⟨i, h⟩) with
        | some sub =>
            let corrected := code.take i ++ sub :: code.drop (i + 1)
            if verifyChecksum corrected (calculateChecksum corrected) then some corrected
            else attemptCorrectionFrom code (i + 1) fuel
        | none => attemptCorrectionFrom code (i + 1) fuel
      else none

/-- `PerceptualAlchemyDecoder.attemptErrorCorrection`. -/
def attemptErrorCorrection (code : List Char) : Option (List Char) :=
  attemptCorrectionFrom code 0 code.length

/-- Character class of the decoder's format regex `[A-Za-z0-9αβγδ]`. -/
def decoderFormatCharOk (c : Char) : Bool :=
  (65 ≤ charCode c && charCode c ≤ 90) ||
  (97 ≤ charCode c && charCode c ≤ 122) ||
  (48 ≤ charCode c && charCode c ≤ 57) ||
  c = 'α' || c = 'β' || c = 'γ' || c = 'δ'

/-- JS `String.prototype.trim` (the codec only ever meets ASCII whitespace). -/
def jsTrim (s : List Char) : List Char :=
  ((s.dropWhile Char.isWhitespace).reverse.dropWhile Char.isWhitespace).reverse

/-- Result shape of `validateAndCorrect`. -/
structure ValidationResult where
  valid : Bool
  code : Option (List Char) := none
  corrected : Bool := false
  error : Option String := none
  deriving Repr, DecidableEq

/-- `PerceptualAlchemyDecoder.validateAndCorrect`: trim, match the anchored
regex `[A-Za-z0-9αβγδ]` with length 16–33, verify the trailing checksum and
fall back to `attemptErrorCorrection` on mismatch. -/
def validateAndCorrect (raw : List Char) : ValidationResult :=
  let code := jsTrim raw
  if ¬ (code.all decoderFormatCharOk ∧ 16 ≤ code.length ∧ code.length ≤ 33) then
    { valid := false, error := some "Invalid character set" }
  else
    let checksum := code.getLastD ' '
    let payload := code.dropLast
    if verifyChecksum payload checksum then
      { valid := true, code := some payload }
    else
      match attemptErrorCorrection payload with
      | some corrected => { valid := true, code := some corrected, corrected := true }
      | none => { valid := false, error := some "Checksum validation failed" }

/-- Character class of `SymbolValidator`'s regex `[A-Za-z0-9!@#$%αβγδ]`. -/
def svCharOk (c : Char) : Bool :=
  decoderFormatCharOk c || c = '!' || c = '@' || c = '#' || c = '$' || c = '%'

/-- `SymbolValidator.validate` (facade-side self-check): length 16–33, the wider
character class including `!@#$%`, and the same weighted checksum. -/
def svValidate (code : List Char) : Bool :=
  if code.length < 16 || 33 < code.length then false
  else if ¬ code.all svCharOk then false
  else calculateChecksum code.dropLast == code.getLastD ' '

/-! ### PerceptualSystem facade (`PerceptualSystem` in the source) -/

/-- `PerceptualSystem.addToMemory`: push the entry, then shift the oldest
entry off while the buffer exceeds `maxMemorySize`. -/
def addToMemory {α : Type} (maxMemorySize : ℕ) (entry : α) (buf : List α) : List α :=
  let buf' := buf ++ [entry]
  if maxMemorySize < buf'.length then buf'.tail else buf'

/-- Shape of the encoder result consumed by the facade (`result.code` and
`result.analysis.emotion.current`). -/
structure EncResultShape (ε : Type) where
  code : List Char
  emotion : ε

/-- One `{code, timestamp, context, emotion}` memory-buffer record. -/
structure MemoryEntry (γ ε : Type) where
  code : List Char
  timestamp : ℕ
  context : γ
  emotion : ε

/-- `PerceptualSystem.encode`: run the encoder, re-validate the produced code
with `SymbolValidator`, throw on failure, otherwise append to memory and
return.  The encoder call is passed in as its `Except` outcome; the `catch`
block only logs and rethrows. -/
def psEncode {γ ε : Type} (maxMem now : ℕ) (context : γ)
    (encRes : Except String (EncResultShape ε)) (buf : List (MemoryEntry γ ε)) :
    Except String (EncResultShape ε) × List (MemoryEntry γ ε) :=
  match encRes with
  | .error e => (.error e, buf)
  | .ok r =>
      if svValidate r.code then
        (.ok r, addToMemory maxMem ⟨r.code, now, context, r.emotion⟩ buf)
      else
        (.error "Invalid encoding produced", buf)

/-! ### Decode-side fallback (facade `decode`) -/

/-- Reconstructed-experience payload fields of a decode result. -/
structure ExperienceFields where
  scene : String
  objects : List String
  spatial : String
  emotional : String
  temporal : String

/-- Narrative block of a decode result. -/
structure NarrativeFields where
  primary : String
  variations : List String
  poetic : String

/-- Memory block of a decode result. -/
structure MemoryFields where
  echoes : List String
  resonance : ℝ
  decay : ℝ

/-- Rendering block of a decode result. -/
structure RenderingFields where
  hints : List String
  focus : List (ℝ × ℝ)

/-- Metrics block of a decode result. -/
structure MetricsFields where
  entropyBitsPerSymbol : ℝ
  totalBits : ℝ
  length : ℕ

/-- Metadata block of a decode result. -/
structure MetadataFields where
  confidence : ℝ
  isReliable : Bool
  mode : String
  culture : String

/-- Full decode result: every top-level field the decoder's `decode` returns. -/
structure DecodedExperience where
  experience : ExperienceFields
  narrative : NarrativeFields
  memory : MemoryFields
  rendering : RenderingFields
  metrics : MetricsFields
  metadata : MetadataFields

/-- Modelled from the spec: `PerceptualAlchemyDecoder.generateFallbackExperience`
is called by `PerceptualSystem.decode` (and by `handleInvalidCode`) but is not
defined anywhere under the sources; per the spec it yields a deterministic,
fully structured fallback experience with generic narrative and confidence 0. -/
def generateFallbackExperience (code : List Char) : DecodedExperience where
  experience :=
    { scene := "unknown", objects := [], spatial := "undefined"
      emotional := "neutral", temporal := "timeless" }
  narrative :=
    { primary := "A memory too faded to fully recall..."
      variations := ["Fragments of something once seen..."]
      poetic := "Like trying to hold water in cupped hands" }
  memory := { echoes := [], resonance := 0, decay := 0 }
  rendering := { hints := [], focus := [] }
  metrics := { entropyBitsPerSymbol := 0, totalBits := 0, length := code.length }
  metadata := { confidence := 0, isReliable := false, mode := "stable", culture := "universal" }

/-- `PerceptualSystem.decode`: validate the format first and return the fallback
experience on failure; otherwise run the decoder, whose own outcome (including
any exception, caught by the surrounding `try`) is passed in as an `Except`. -/
def psDecode (code : List Char) (decodeRes : Except String DecodedExperience) :
    DecodedExperience :=
  if svValidate code then
    match decodeRes with
    | .ok e => e
    | .error _ => generateFallbackExperience code
  else
    generateFallbackExperience code

/-- Replacement of the first confusable character by its partner, as the
claim describes the correction loop; compared against the source's
`attemptErrorCorrection` below. -/
def replaceFirstConfusable : List Char → Option (List Char)
  | [] => none
  | c :: rest =>
      match commonErrors c with
      | some sub => some (sub :: rest)
      | none => (replaceFirstConfusable rest).map (c :: ·)

/-! ### Encoder vocabulary and hashing (`DynamicVocabulary`) -/

/-- Wrap an integer into the signed 32-bit range, as JS `x & x` (`ToInt32`). -/
def toInt32 (z : ℤ) : ℤ :=
  let m := z % 4294967296
  if m < 2147483648 then m else m - 4294967296

/-- One step of the JS string hash `hash = ((hash << 5) - hash) + c; hash &= hash`.
`hash << 5` itself truncates to 32 bits before the subtraction. -/
def jsHashStep (h : ℤ) (c : ℕ) : ℤ :=
  toInt32 (toInt32 (h * 32) - h + c)

/-- The `getSymbol` hash over the normalized value string. -/
def jsHash (s : List Char) : ℤ :=
  s.foldl (fun h c => jsHashStep h (charCode c)) 0

/-- `String(value).toLowerCase().replace(/[^a-z0-9]/g, '')`. -/
def normalizeValue (s : String) : List Char :=
  (s.toList.map Char.toLower).filter
    (fun c => (97 ≤ charCode c && charCode c ≤ 122) || (48 ≤ charCode c && charCode c ≤ 57))

/-- JS coercion of a possibly-`undefined` string (the source never assigns
`shape.type`, so `String(value)` yields `"undefined"` there). -/
def jsString : Option String → String
  | none => "undefined"
  | some s => s

/-- The `DynamicVocabulary.vocabularies` table. -/
def vocabularies (category : String) : Option (List Char) :=
  if category = "scene" then some "ABCDEFGHIJ".toList
  else if category = "light" then some "KLMNOP".toList
  else if category = "mood" then some "QRSTUV".toList
  else if category = "object" then some "abcdefghijklmnopqrstuvwxyz".toList
  else if category = "focus" then some "WXYZ".toList
  else if category = "distribution" then some "01234".toList
  else if category = "trend" then some "56789".toList
  else if category = "complexity" then some "αβγδ".toList
  else if category = "depth" then some "!@#$%".toList
  else if category = "modifier" then some "+-*/=".toList
  else none

/-- `DynamicVocabulary.getSymbol`: hash the normalized value into the
category's vocabulary (`'?'` for an unknown category). -/
def getSymbol (category value : String) : Char :=
  match vocabularies category with
  | none => '?'
  | some vocab => vocab.getD ((jsHash (normalizeValue value)).natAbs % vocab.length) '?'

/-- `DynamicVocabulary.getSymbolWithLength`: object symbols extend the base
symbol with deterministic successor letters of the a–z vocabulary; other
categories append modifier symbols.  Finally `slice(0, length)`. -/
def getSymbolWithLength (category value : String) (len : ℕ) : List Char :=
  let base := getSymbol category value
  if category = "object" then
    let vocab := "abcdefghijklmnopqrstuvwxyz".toList
    (base :: (List.range' 1 (len - 1)).map
      (fun i => vocab.getD ((charCode base - 97 + i) % vocab.length) '?')).take len
  else
    (base :: (List.range' 1 (len - 1)).map
      (fun i => getSymbol "modifier" (value ++ toString i))).take len

/-- `String.prototype.padEnd`. -/
def padEnd (l : List Char) (n : ℕ) (c : Char) : List Char :=
  l ++ List.replicate (n - l.length) c

/-- The encoder's per-mode symbol allocation budgets. -/
structure Budget where
  total : ℕ
  scene : ℕ
  objects : ℕ
  spatial : ℕ
  emotion : ℕ
  deriving Repr, DecidableEq

/-- `this.budgets`: keyed `mobile`/`balanced`/`rich`; any other mode (such as
`compact`) finds no entry, and the subsequent `budget.scene` access throws. -/
def budgets (mode : String) : Option Budget :=
  if mode = "mobile" then some ⟨16, 3, 6, 4, 3⟩
  else if mode = "balanced" then some ⟨26, 4, 12, 6, 4⟩
  else if mode = "rich" then some ⟨32, 4, 14, 8, 6⟩
  else none

/-! ### Encoder data model

Numeric values are generic over a linear ordered field `K` with a floor so
that the same definitions serve both exact evaluation (`K := ℚ`) and the
real-valued analysis pipeline (`K := ℝ`). -/

/-- An RGB triple as read off cluster centers and samples. -/
structure RgbV (K : Type) where
  r : K
  g : K
  b : K

/-- One entry of `mapColorsToEmotions`. -/
structure Pal (K : Type) where
  color : RgbV K
  warmth : K
  brightness : K
  saturation : K
  emotionalWeight : K

/-- A k-means color cluster. -/
structure Cluster (K : Type) where
  center : RgbV K
  samples : List (RgbV K)
  weight : K

/-- A cluster after `applyCulturalLens` annotated it. -/
structure CulCluster (K : Type) extends Cluster K where
  culturalWeight : K
  culturalSymbol : Option String

/-- `dominantOrientation` result. -/
structure Orientation (K : Type) where
  dominant : K
  entropy : K
  histogram : List K

/-- `detectEdges` result. -/
structure Edges (K : Type) where
  map : ℕ → K
  density : K
  orientation : Orientation K

/-- A shape bounding box. -/
structure BBox (K : Type) where
  minX : K
  minY : K
  maxX : K
  maxY : K
  width : K
  height : K

/-- A shape as produced by `marchingSquares`.  The source never assigns
`symbolWeight` or `type`; reading the missing `symbolWeight` makes every
comparison on it false downstream, which `0` reproduces, and the missing
`type` stringifies to `"undefined"` (`none` here). -/
structure ShapeBase (K : Type) where
  points : List (K × K)
  centroid : K × K
  area : K
  perimeter : K
  boundingBox : BBox K
  saliency : K
  symbolWeight : K
  type : Option String

/-- A shape after `applyCulturalLens` attached `culturalWeight`. -/
structure CulShape (K : Type) extends ShapeBase K where
  culturalWeight : K

/-- `estimateDepthMap` result. -/
structure DepthMap (K : Type) where
  foreground : List (ShapeBase K)
  midground : List (ShapeBase K)
  background : List (ShapeBase K)

/-- `analyzeDistributionPattern` result. -/
structure Distribution (K : Type) where
  pattern : String
  balance : K
  tension : K
  quadrants : List K

/-- `analyzeRadialDistribution` result. -/
structure Radial (K : Type) where
  sectors : List K
  dominantSector : ℕ
  balance : K
  pattern : String

/-- `analyzeSpatial` result (the `pattern` field mirrors
`spatial.pattern = distribution.pattern`). -/
structure Spatial (K : Type) where
  centerOfMass : K × K
  centralMass : K
  distribution : Distribution K
  depthMap : Option (DepthMap K)
  primaryFocus : String
  asymmetry : K
  radialDistribution : Option (Radial K)
  pattern : String

/-- `analyzeColors` result, over a cluster representation `C`. -/
structure ColorsOf (C K : Type) where
  dominantClusters : List C
  emotionalPalette : List (Pal K)
  harmony : K
  temperature : K

/-- Plain color analysis. -/
abbrev Colors (K : Type) := ColorsOf (Cluster K) K

/-- Color analysis after the cultural lens. -/
abbrev CulColors (K : Type) := ColorsOf (CulCluster K) K

/-- A valence/arousal/dominance state. -/
structure EmotionVAD (K : Type) where
  valence : K
  arousal : K
  dominance : K

/-- `analyzeEmotion` result. -/
structure Emotion (K : Type) where
  current : EmotionVAD K
  trajectory : String
  resonance : K

/-- The perception record handed to `encodeToSymbols` (after
`applyCulturalLens`). -/
structure CulturalPerception (K : Type) where
  edges : Edges K
  shapes : List (CulShape K)
  colors : CulColors K
  spatial : Spatial K
  saliency : K

section EncoderSegments

variable {K : Type} [LinearOrderedField K] [FloorRing K]

/-- `quantizeToSymbol`: map `[0,1]` onto `A`–`Z` by `floor(value·25)`,
clamped. -/
def quantizeToSymbol (value : K) : Char :=
  Char.ofNat (65 + (max 0 (min 25 ⌊value * 25⌋)).toNat)

/-- `encodePosition`: at length 1, the coarse 3×3 grid tag drawn from the
letters `abcdefghi`; otherwise two quantized `A`–`Z` symbols.  The
`boundingBox` argument is accepted and ignored, as in the source. -/
def encodePosition (imgW imgH : K) (centroid : K × K) (_bbox : Option (BBox K))
    (len : ℕ) : List Char :=
  let nx := centroid.1 / imgW
  let ny := centroid.2 / imgH
  if len = 1 then
    let gridX := ⌊nx * 3⌋
    let gridY := ⌊ny * 3⌋
    let gridPos := gridY * 3 + gridX
    ["abcdefghi".toList.getD (max 0 (min 8 gridPos)).toNat '?']
  else
    [quantizeToSymbol nx, quantizeToSymbol ny]

/-- `classifySceneType` (rule-based, in source order). -/
def classifySceneType (p : CulturalPerception K) : String :=
  let shapeTypes := p.shapes.map (fun s => s.type)
  if some "organic" ∈ shapeTypes ∧ p.colors.temperature > 6/10 then "natural"
  else if some "square" ∈ shapeTypes ∨ some "rectangle" ∈ shapeTypes then "architectural"
  else if (match p.shapes with
          | [s] => decide (s.area > 1000)
          | _ => false) then "portrait"
  else if p.edges.density > 3/10 then "complex"
  else if p.edges.density < 5/100 then "minimal"
  else "general"

/-- `classifyLighting`: brightness of the first dominant cluster (0.5 when
there is none), then temperature tiers. -/
def classifyLighting (colors : CulColors K) : String :=
  let temp := colors.temperature
  let brightness : K :=
    match colors.dominantClusters with
    | [] => 1/2
    | c :: _ => (c.center.r + c.center.g + c.center.b) / (3 * 255)
  if brightness > 8/10 then "bright"
  else if brightness < 2/10 then "dark"
  else if temp > 7/10 then "warm"
  else if temp < 3/10 then "cool"
  else "neutral"

/-- `dominantMood` from the valence/arousal quadrant. -/
def dominantMood (emotion : Emotion K) : String :=
  let v := emotion.current.valence
  let a := emotion.current.arousal
  if v > 6/10 ∧ a > 6/10 then "joyful"
  else if v > 6/10 ∧ a < 4/10 then "peaceful"
  else if v < 4/10 ∧ a > 6/10 then "tense"
  else if v < 4/10 ∧ a < 4/10 then "melancholic"
  else "neutral"

/-- `calculateSceneComplexity` (the later of the two definitions in the class
body, which in JS overrides the earlier one). -/
def calculateSceneComplexity (p : CulturalPerception K) : String :=
  let objectCount : K := p.shapes.length
  let edgeDensity := p.edges.density
  let colorVariety : K := p.colors.dominantClusters.length
  let complexity := objectCount / 10 * (4/10) + edgeDensity * (4/10) +
    colorVariety / 5 * (2/10)
  if complexity > 7/10 then "high"
  else if complexity > 3/10 then "medium"
  else "low"

/-- `calculateEmotionalTrend`: the trajectory is always the string computed by
`calculateEmotionalTrajectory`, which is returned unchanged. -/
def calculateEmotionalTrend (trajectory : String) : String := trajectory

/-- `encodeSceneContext`: scene, lighting and mood symbols, plus a complexity
symbol when the scene budget exceeds 3. -/
def encodeSceneContext (p : CulturalPerception K) (emotion : Emotion K)
    (budget : ℕ) : List Char :=
  let context := [getSymbol "scene" (classifySceneType p),
    getSymbol "light" (classifyLighting p.colors),
    getSymbol "mood" (dominantMood emotion)]
  if 3 < budget then context ++ [getSymbol "complexity" (calculateSceneComplexity p)]
  else context

/-- Symbol length from encoding priority: `priority > 0.8 ? 1 : priority > 0.5 ? 2 : 3`. -/
def symbolLengthFor (priority : K) : ℕ :=
  if priority > 8/10 then 1 else if priority > 5/10 then 2 else 3

/-- The greedy object-fill loop of `encodeObjectsWithEntropy`: priority from
`culturalWeight·saliency` fixes the symbol length, and the loop breaks when
the remaining budget cannot take the symbol plus its position tag. -/
def encodeObjectsLoop (imgW imgH : K) (budget : ℕ) :
    List (CulShape K) → ℕ → List Char
  | [], _ => []
  | s :: rest, currentLength =>
      if currentLength < budget then
        if budget < currentLength + symbolLengthFor (s.culturalWeight * s.saliency) + 1 then
          []
        else
          getSymbolWithLength "object" (jsString s.type)
              (symbolLengthFor (s.culturalWeight * s.saliency)) ++
            encodePosition imgW imgH s.centroid (some s.boundingBox) 1 ++
            encodeObjectsLoop imgW imgH budget rest
              (currentLength +
                (getSymbolWithLength "object" (jsString s.type)
                  (symbolLengthFor (s.culturalWeight * s.saliency))).length +
                (encodePosition imgW imgH s.centroid (some s.boundingBox) 1).length)
      else []

/-- `encodeObjectsWithEntropy`: empty shape lists yield pure `'0'` padding;
otherwise the greedy fill padded with `'0'`. -/
def encodeObjectsWithEntropy (imgW imgH : K) (shapes : List (CulShape K))
    (budget : ℕ) : List Char :=
  if shapes.length = 0 then List.replicate budget '0'
  else padEnd (encodeObjectsLoop imgW imgH budget shapes 0) budget '0'

/-- `quantizeDepthToLayers`. -/
def quantizeDepthToLayers (depthMap : Option (DepthMap K)) : String × K :=
  match depthMap with
  | none => ("flat", 33/100)
  | some dm =>
      let total := dm.foreground.length + dm.midground.length + dm.background.length
      if total = 0 then ("empty", 0)
      else
        let foreWeight : K := (dm.foreground.length : K) / total
        let backWeight : K := (dm.background.length : K) / total
        let midWeight : K := (dm.midground.length : K) / total
        let distribution :=
          if foreWeight > 6/10 then "forward"
          else if backWeight > 6/10 then "distant"
          else if midWeight > 6/10 then "centered"
          else "balanced"
        (distribution, foreWeight)

/-- `encodeDepthLayers`: a depth-distribution symbol from the reserved
`!@#$%` vocabulary, plus a quantized foreground weight when room remains. -/
def encodeDepthLayers (depthMap : Option (DepthMap K)) (availableChars : ℕ) :
    List Char :=
  match depthMap with
  | none => []
  | some dm =>
      if availableChars = 0 then []
      else
        let layers := quantizeDepthToLayers (some dm)
        (if 1 ≤ availableChars then [getSymbol "depth" layers.1] else []) ++
        (if 2 ≤ availableChars then [quantizeToSymbol layers.2] else [])

/-- The conditional truncation `if (code.length > budget) code = code.slice(0, budget)`. -/
def truncateTo (l : List Char) (n : ℕ) : List Char :=
  if n < l.length then l.take n else l

/-- `encodeSpatialWithDepth`: focus and distribution symbols, depth layers
when the budget allows, truncated and padded with `'X'`. -/
def encodeSpatialWithDepth (spatial : Spatial K) (budget : ℕ) : List Char :=
  padEnd
    (truncateTo
      ([getSymbol "focus" spatial.primaryFocus,
        getSymbol "distribution" spatial.pattern] ++
        (if 2 < budget then encodeDepthLayers spatial.depthMap (budget - 2) else []))
      budget)
    budget 'X'

/-- `encodeEmotionalTrajectory`: quantized valence and arousal, an optional
trend symbol (the trajectory string is always truthy here exactly when it is
nonempty), an optional resonance symbol, padded with `'5'`. -/
def encodeEmotionalTrajectory (emotion : Emotion K) (budget : ℕ) : List Char :=
  padEnd
    ([quantizeToSymbol emotion.current.valence,
      quantizeToSymbol emotion.current.arousal] ++
      (if 2 < budget ∧ emotion.trajectory ≠ "" then
        [getSymbol "trend" (calculateEmotionalTrend emotion.trajectory)] else []) ++
      (if 3 < budget then [quantizeToSymbol emotion.resonance] else []))
    budget '5'

/-- Character class of the spatial segment's defensive check
`[^WXYZ01234!@#$%A-Z]`. -/
def spatialCharOk (c : Char) : Bool :=
  c ∈ "WXYZ01234!@#$%".toList || (65 ≤ charCode c && charCode c ≤ 90)

/-- `encodeToSymbols`: look up the mode budget (a missing key such as
`compact` throws a `TypeError` on the `budget.scene` access), build the four
segments, run the defensive segment validation and return the joined code. -/
def encodeToSymbols (mode : String) (imgW imgH : K)
    (p : CulturalPerception K) (emotion : Emotion K) : Except String (List Char) :=
  match budgets mode with
  | none => .error "TypeError: cannot read properties of undefined"
  | some budget =>
      let sceneCode := encodeSceneContext p emotion budget.scene
      let objectCode := encodeObjectsWithEntropy imgW imgH p.shapes budget.objects
      let spatialCode := encodeSpatialWithDepth p.spatial budget.spatial
      let emotionCode := encodeEmotionalTrajectory emotion budget.emotion
      let code := sceneCode ++ objectCode ++ spatialCode ++ emotionCode
      if ¬ ((objectCode.filter (· ≠ '0')).all
          (fun c => 97 ≤ charCode c && charCode c ≤ 122)) then
        .error "ENCODER invalid symbols in object segment"
      else if ¬ (spatialCode.all spatialCharOk) then
        .error "ENCODER invalid symbols in spatial segment"
      else
        .ok code

/-- `generateReedSolomonParity`: despite its name, the validator's weighted
modular checksum. -/
def generateReedSolomonParity (data : List Char) : Char :=
  Char.ofNat (65 + weightedSumFrom data 0 % 26)

/-- `addReedSolomonErrorCorrection`: append the single parity symbol. -/
def addReedSolomonErrorCorrection (code : List Char) : List Char :=
  code ++ [generateReedSolomonParity code]

end EncoderSegments

/-! ### Decoder position tables (`decodePosition`) -/

section DecoderPosition

variable {K : Type} [LinearOrderedField K] [FloorRing K]

/-- `decodeQuantizedValue`: reverse of `quantizeToSymbol`. -/
def decodeQuantizedValue (ch : Char) : K :=
  ((max 0 (min 25 ((charCode ch.toUpper : ℤ) - 65)) : ℤ) : K) / 25

/-- `PerceptualAlchemyDecoder.decodePosition`: its grid table is the digits
`123456789`, with a centre-of-frame fallback. -/
def decodePosition (symbols : List Char) : K × K :=
  match symbols with
  | [s] =>
      if s ∈ "123456789".toList then
        let i := "123456789".toList.indexOf s
        let gx := i % 3
        let gy := i / 3
        (((gx : K) + 1/2) / 3, ((gy : K) + 1/2) / 3)
      else (1/2, 1/2)
  | [a, b] => (decodeQuantizedValue a, decodeQuantizedValue b)
  | _ => (1/2, 1/2)

end DecoderPosition

/-! ### Concrete rational-valued sample inputs for exercising the model -/

/-- Edge analysis of a featureless sample frame. -/
def sampleEdgesQ : Edges ℚ where
  map := fun _ => 0
  density := 0
  orientation := ⟨0, 0, []⟩

/-- Color analysis of a featureless sample frame. -/
def sampleColorsQ : CulColors ℚ where
  dominantClusters := []
  emotionalPalette := []
  harmony := 1
  temperature := 1/2

/-- Spatial analysis of a featureless sample frame. -/
def sampleSpatialQ : Spatial ℚ where
  centerOfMass := (8, 8)
  centralMass := 0
  distribution := ⟨"empty", 1, 0, []⟩
  depthMap := some ⟨[], [], []⟩
  primaryFocus := "center"
  asymmetry := 0
  radialDistribution := none
  pattern := "empty"

/-- A minimal concrete perception for exercising the allocator on explicit
inputs. -/
def samplePerceptionQ : CulturalPerception ℚ where
  edges := sampleEdgesQ
  shapes := []
  colors := sampleColorsQ
  spatial := sampleSpatialQ
  saliency := 0

/-- A neutral concrete emotional state. -/
def sampleEmotionQ : Emotion ℚ where
  current := ⟨1/2, 1/2, 1/2⟩
  trajectory := "stable"
  resonance := 1/2

/-! ### Real-valued analysis pipeline

The perceptual analysis (`analyzePerception` through `encode`) computes with
JS floating-point numbers; it is embedded here over `ℝ`.  The successive
results of `Math.random()` are threaded explicitly as a stream `rand : ℕ → ℝ`
indexed by draw order; the only consumer of the stream on the path to the
returned code is `clusterColorsCIEDE2000`. -/

noncomputable section RealPipeline

/-- JS `x || d` on an optionally-present number: `undefined` and `0` are both
falsy. -/
def jsOr (x : Option ℝ) (d : ℝ) : ℝ :=
  match x with
  | some v => if v = 0 then d else v
  | none => d

/-- JS `Math.min(...xs)` on the nonempty argument lists the encoder passes it
(the `[]` case is arbitrary; `Math.min()` of no arguments is `Infinity`). -/
def jsMinList : List ℝ → ℝ
  | [] => 0
  | x :: t => t.foldl min x

/-- JS `Math.max(...xs)` on the nonempty argument lists the encoder passes it. -/
def jsMaxList : List ℝ → ℝ
  | [] => 0
  | x :: t => t.foldl max x

/-- JS `Math.atan2` in terms of `Real.arctan`. -/
def jsAtan2 (y x : ℝ) : ℝ :=
  if 0 < x then Real.arctan (y / x)
  else if x < 0 then
    (if 0 ≤ y then Real.arctan (y / x) + Real.pi else Real.arctan (y / x) - Real.pi)
  else
    (if 0 < y then Real.pi / 2 else if y < 0 then -(Real.pi / 2) else 0)

/-- A CIELAB triple as returned by `rgbToLab`. -/
structure Lab where
  L : ℝ
  a : ℝ
  b : ℝ

/-- The per-channel sRGB gamma expansion inside `rgbToLab`. -/
def gammaCorrect (c : ℝ) : ℝ :=
  if c > 0.04045 then ((c + 0.055) / 1.055) ^ (2.4 : ℝ) else c / 12.92

/-- `rgbToLab`. -/
def rgbToLab (color : RgbV ℝ) : Lab :=
  let r := gammaCorrect (color.r / 255)
  let g := gammaCorrect (color.g / 255)
  let b := gammaCorrect (color.b / 255)
  let x := r * 0.4124564 + g * 0.3575761 + b * 0.1804375
  let y := r * 0.2126729 + g * 0.7151522 + b * 0.0721750
  let z := r * 0.0193339 + g * 0.1191920 + b * 0.9503041
  let fx := if x / 0.95047 > 0.008856 then (x / 0.95047) ^ ((1 : ℝ)/3)
    else 7.787 * x / 0.95047 + 16/116
  let fy := if y / 1 > 0.008856 then (y / 1) ^ ((1 : ℝ)/3)
    else 7.787 * y / 1 + 16/116
  let fz := if z / 1.08883 > 0.008856 then (z / 1.08883) ^ ((1 : ℝ)/3)
    else 7.787 * z / 1.08883 + 16/116
  ⟨116 * fy - 16, 500 * (fx - fy), 200 * (fy - fz)⟩

/-- `calculateCIEDE2000` (with `kL = kC = kH = 1` as in the source). -/
def calculateCIEDE2000 (color1 color2 : RgbV ℝ) : ℝ :=
  let lab1 := rgbToLab color1
  let lab2 := rgbToLab color2
  let deltaL := lab2.L - lab1.L
  let avgL := (lab1.L + lab2.L) / 2
  let C1 := Real.sqrt (lab1.a * lab1.a + lab1.b * lab1.b)
  let C2 := Real.sqrt (lab2.a * lab2.a + lab2.b * lab2.b)
  let avgC := (C1 + C2) / 2
  let G := 0.5 * (1 - Real.sqrt (avgC ^ (7:ℕ) / (avgC ^ (7:ℕ) + 25 ^ (7:ℕ))))
  let a1Prime := lab1.a * (1 + G)
  let a2Prime := lab2.a * (1 + G)
  let C1Prime := Real.sqrt (a1Prime * a1Prime + lab1.b * lab1.b)
  let C2Prime := Real.sqrt (a2Prime * a2Prime + lab2.b * lab2.b)
  let avgCPrime := (C1Prime + C2Prime) / 2
  let deltaCPrime := C2Prime - C1Prime
  let h1Prime0 := jsAtan2 lab1.b a1Prime * 180 / Real.pi
  let h1Prime := if h1Prime0 < 0 then h1Prime0 + 360 else h1Prime0
  let h2Prime0 := jsAtan2 lab2.b a2Prime * 180 / Real.pi
  let h2Prime := if h2Prime0 < 0 then h2Prime0 + 360 else h2Prime0
  let deltahPrime :=
    if |h1Prime - h2Prime| ≤ 180 then h2Prime - h1Prime
    else if h2Prime - h1Prime > 180 then h2Prime - h1Prime - 360
    else h2Prime - h1Prime + 360
  let deltaHPrime := 2 * Real.sqrt (C1Prime * C2Prime) *
    Real.sin (deltahPrime * Real.pi / 360)
  let avgHPrime :=
    if |h1Prime - h2Prime| ≤ 180 then (h1Prime + h2Prime) / 2
    else if h1Prime + h2Prime < 360 then (h1Prime + h2Prime + 360) / 2
    else (h1Prime + h2Prime - 360) / 2
  let T := 1 - 0.17 * Real.cos ((avgHPrime - 30) * Real.pi / 180) +
    0.24 * Real.cos (2 * avgHPrime * Real.pi / 180) +
    0.32 * Real.cos ((3 * avgHPrime + 6) * Real.pi / 180) -
    0.20 * Real.cos ((4 * avgHPrime - 63) * Real.pi / 180)
  let SL := 1 + 0.015 * (avgL - 50) ^ (2:ℕ) /
    Real.sqrt (20 + (avgL - 50) ^ (2:ℕ))
  let SC := 1 + 0.045 * avgCPrime
  let SH := 1 + 0.015 * avgCPrime * T
  let RT := -2 * Real.sqrt (avgCPrime ^ (7:ℕ) / (avgCPrime ^ (7:ℕ) + 25 ^ (7:ℕ))) *
    Real.sin (60 * Real.exp (-(((avgHPrime - 275) / 25) ^ (2:ℕ))) * Real.pi / 180)
  Real.sqrt ((deltaL / (1 * SL)) ^ (2:ℕ) + (deltaCPrime / (1 * SC)) ^ (2:ℕ) +
    (deltaHPrime / (1 * SH)) ^ (2:ℕ) +
    RT * (deltaCPrime / (1 * SC)) * (deltaHPrime / (1 * SH)))

/-! #### Color clustering (`clusterColorsCIEDE2000`)

The JS sample objects carry `x`/`y` fields that nothing downstream reads;
samples are therefore embedded as bare RGB triples. -/

/-- The squared minimum distance of a sample to the current centers (the
`distances` entries of the k-means++ seeding loop). -/
def kppMinDistSq (clusters : List (Cluster ℝ)) (s : RgbV ℝ) : ℝ :=
  let minDist := jsMinList (clusters.map (fun cl => calculateCIEDE2000 s cl.center))
  minDist * minDist

/-- The roulette walk `random -= distances[i]; if (random <= 0) break`:
the first index where the running difference drops to `0` or below, if any. -/
def pickIndex : List ℝ → ℝ → Option ℕ
  | [], _ => none
  | d :: rest, random =>
      if random - d ≤ 0 then some 0 else (pickIndex rest (random - d)).map (· + 1)

/-- The `while (clusters.length < min(8, samples.length))` seeding loop.
Each reachable iteration pushes one center, so the fuel bound `8` covers the
loop exactly; an iteration whose roulette walk picks nothing (impossible for
`Math.random() < 1`) would loop forever in JS and merely stops here. -/
def seedLoop (rand : ℕ → ℝ) (samples : List (RgbV ℝ)) :
    ℕ → ℕ → List (Cluster ℝ) → List (Cluster ℝ)
  | 0, _, clusters => clusters
  | fuel + 1, drawIdx, clusters =>
      if clusters.length < min 8 samples.length then
        let distances := samples.map (kppMinDistSq clusters)
        let totalDist := distances.foldl (· + ·) 0
        let random := rand drawIdx * totalDist
        match pickIndex distances random with
        | some i =>
            seedLoop rand samples fuel (drawIdx + 1)
              (clusters ++ [⟨samples.getD i ⟨0, 0, 0⟩, [], 0⟩])
        | none => seedLoop rand samples fuel (drawIdx + 1) clusters
      else clusters

/-- The index of the nearest cluster to a sample (`minDist = Infinity` start:
the first cluster always beats the empty accumulator). -/
def nearestClusterIdx (clusters : List (Cluster ℝ)) (s : RgbV ℝ) : Option ℕ :=
  (clusters.foldl (fun (acc : Option (ℝ × ℕ) × ℕ) cl =>
      let d := calculateCIEDE2000 s cl.center
      match acc.1 with
      | none => (some (d, acc.2), acc.2 + 1)
      | some (m, bi) => if d < m then (some (d, acc.2), acc.2 + 1)
          else (some (m, bi), acc.2 + 1))
    (none, 0)).1.map Prod.snd

/-- The componentwise mean of a cluster's assigned samples. -/
def meanCenter (samples : List (RgbV ℝ)) : RgbV ℝ :=
  ⟨(samples.foldl (fun a s => a + s.r) 0) / samples.length,
   (samples.foldl (fun a s => a + s.g) 0) / samples.length,
   (samples.foldl (fun a s => a + s.b) 0) / samples.length⟩

/-- One k-means iteration: clear and reassign samples, then move each
nonempty cluster's center when it drifts by more than `1` and set its weight;
`changed` reports whether any center moved. -/
def kmeansStep (samples : List (RgbV ℝ)) (clusters : List (Cluster ℝ)) :
    List (Cluster ℝ) × Bool :=
  let assigned := (List.range clusters.length).map (fun j =>
    { clusters.getD j ⟨⟨0, 0, 0⟩, [], 0⟩ with
      samples := samples.filter (fun s => decide (nearestClusterIdx clusters s = some j))
      weight := 0 })
  let updated := assigned.map (fun cl =>
    if cl.samples.length ≠ 0 then
      let newCenter := meanCenter cl.samples
      let w := (cl.samples.length : ℝ) / samples.length
      if calculateCIEDE2000 cl.center newCenter > 1 then
        ({ cl with center := newCenter, weight := w }, true)
      else ({ cl with weight := w }, false)
    else (cl, false))
  (updated.map Prod.fst, updated.any Prod.snd)

/-- The `maxIterations = 50` k-means loop with early exit when nothing moved. -/
def kmeansLoop (samples : List (RgbV ℝ)) :
    ℕ → List (Cluster ℝ) → List (Cluster ℝ)
  | 0, clusters => clusters
  | fuel + 1, clusters =>
      let r := kmeansStep samples clusters
      if r.2 then kmeansLoop samples fuel r.1 else r.1

/-- Stable descending insertion by weight, modelling the engine's stable
`Array.prototype.sort` with comparator `(a, b) => b.weight - a.weight`. -/
def stableInsertWeightDesc (c : Cluster ℝ) : List (Cluster ℝ) → List (Cluster ℝ)
  | [] => [c]
  | x :: t => if x.weight < c.weight then c :: x :: t else x :: stableInsertWeightDesc c t

/-- Stable sort by descending weight. -/
def jsSortWeightDesc (l : List (Cluster ℝ)) : List (Cluster ℝ) :=
  l.foldl (fun acc c => stableInsertWeightDesc c acc) []

/-- `clusterColorsCIEDE2000`: k-means++ seeding (draw `0` places the first
center, draw `k` drives iteration `k` of the roulette), the k-means loop,
then the nonempty clusters sorted by weight. -/
def clusterColorsCIEDE2000 (rand : ℕ → ℝ) (samples : List (RgbV ℝ)) :
    List (Cluster ℝ) :=
  let seeded :=
    if samples.length = 0 then []
    else seedLoop rand samples 8 1
      [⟨samples.getD (⌊rand 0 * samples.length⌋).toNat ⟨0, 0, 0⟩, [], 0⟩]
  jsSortWeightDesc
    ((kmeansLoop samples 50 seeded).filter (fun c => decide (0 < c.samples.length)))

/-! #### Color features (`analyzeColors` and helpers) -/

/-- `calculateSaturation`. -/
def calculateSaturation (r g b : ℝ) : ℝ :=
  let mx := max r (max g b)
  let mn := min r (min g b)
  if mx = 0 then 0 else (mx - mn) / mx

/-- `mapColorsToEmotions`. -/
def mapColorsToEmotions (clusters : List (Cluster ℝ)) : List (Pal ℝ) :=
  clusters.map (fun cluster =>
    let warmth := (cluster.center.r - cluster.center.b) / 255
    let brightness := (cluster.center.r + cluster.center.g + cluster.center.b) / (3 * 255)
    let saturation := calculateSaturation cluster.center.r cluster.center.g cluster.center.b
    ⟨cluster.center, warmth, brightness, saturation,
      warmth * 0.4 + brightness * 0.3 + saturation * 0.3⟩)

/-- All ordered pairs `(l[i], l[j])` with `i < j`, in the nested-loop order of
`calculateColorHarmony`. -/
def pairsOf {α : Type} : List α → List (α × α)
  | [] => []
  | x :: t => t.map (fun y => (x, y)) ++ pairsOf t

/-- `calculateColorHarmony`. -/
def calculateColorHarmony (clusters : List (Cluster ℝ)) : ℝ :=
  if clusters.length < 2 then 1 else
    let ps := pairsOf clusters
    let harmonious := ps.filter (fun pr =>
      let distance := calculateCIEDE2000 pr.1.center pr.2.center
      decide (distance > 80 ∨ distance < 20))
    (harmonious.length : ℝ) / ps.length

/-- `calculateColorTemperature`. -/
def calculateColorTemperature (clusters : List (Cluster ℝ)) : ℝ :=
  let totalWarmth := clusters.foldl
    (fun a cluster => a + ((cluster.center.r - cluster.center.b) / 255 + 0.5) * cluster.weight) 0
  let totalWeight := clusters.foldl (fun a cluster => a + cluster.weight) 0
  if totalWeight > 0 then totalWarmth / totalWeight else 0.5

/-- Embedding of the sampled integer RGB triples into `ℝ`. -/
def toRgbR (t : ℕ × ℕ × ℕ) : RgbV ℝ :=
  ⟨t.1, t.2.1, t.2.2⟩

/-- The opaque-pixel sampling loop of `analyzeColors` at the byte level:
rows and columns in steps of `step` pixels, skipping pixels whose alpha byte
is `0`. -/
def colorSamplesN (data : ℕ → ℕ) (width height step : ℕ) : List (ℕ × ℕ × ℕ) :=
  ((List.range height).filter (fun y => y % step == 0)).flatMap (fun y =>
    ((List.range width).filter (fun x => x % step == 0)).filterMap (fun x =>
      let idx := (y * width + x) * 4
      if data (idx + 3) = 0 then none
      else some (data idx, data (idx + 1), data (idx + 2))))

/-- `analyzeColors`: sample every 4th pixel (`SAMPLE_RATE * 4` with
`SAMPLE_RATE = 1`), inject opaque white when everything is transparent,
cluster, and derive the palette features. -/
def analyzeColors (rand : ℕ → ℝ) (data : ℕ → ℕ) (width height : ℕ) : Colors ℝ :=
  let samplesN := colorSamplesN data width height 4
  let samples := if samplesN.length = 0 then [⟨255, 255, 255⟩] else samplesN.map toRgbR
  let clusters := clusterColorsCIEDE2000 rand samples
  { dominantClusters := clusters
    emotionalPalette := mapColorsToEmotions clusters
    harmony := calculateColorHarmony clusters
    temperature := calculateColorTemperature clusters }

/-! #### Edge detection (`detectEdges` and helpers) -/

/-- `getLuminance` over the flat RGBA byte array (of length `len`). -/
def getLuminance (data : ℕ → ℕ) (len : ℕ) (pixelIndex : ℕ) : ℝ :=
  let i := pixelIndex * 4
  if len ≤ i + 2 then 0
  else 0.299 * (data i : ℝ) + 0.587 * (data (i + 1) : ℝ) + 0.114 * (data (i + 2) : ℝ)

/-- The 3×3 Sobel magnitude at an interior pixel. -/
def sobelAt (data : ℕ → ℕ) (len width : ℕ) (x y : ℕ) : ℝ :=
  let lum := getLuminance data len
  let tl := lum ((y - 1) * width + (x - 1))
  let tm := lum ((y - 1) * width + x)
  let tr := lum ((y - 1) * width + (x + 1))
  let ml := lum (y * width + (x - 1))
  let mr := lum (y * width + (x + 1))
  let bl := lum ((y + 1) * width + (x - 1))
  let bm := lum ((y + 1) * width + x)
  let br := lum ((y + 1) * width + (x + 1))
  let gx := -tl + tr - 2 * ml + 2 * mr - bl + br
  let gy := -tl - 2 * tm - tr + bl + 2 * bm + br
  Real.sqrt (gx * gx + gy * gy)

/-- The edge magnitude array: Sobel on the interior swept with
`SAMPLE_RATE = 1`, `0` on the border (the `Float32Array` is zero-initialised). -/
def edgeMapOf (data : ℕ → ℕ) (width height : ℕ) : ℕ → ℝ := fun idx =>
  let x := idx % width
  let y := idx / width
  if 1 ≤ x ∧ x + 1 < width ∧ 1 ≤ y ∧ y + 1 < height then
    sobelAt data (width * height * 4) width x y
  else 0

/-- `calculateEdgeDensity`: strong edges among the positive-magnitude cells. -/
def calculateEdgeDensity (threshold : ℝ) (edges : ℕ → ℝ) (size : ℕ) : ℝ :=
  let positive := (List.range size).filter (fun i => decide (0 < edges i))
  let strong := positive.filter (fun i => decide (threshold < edges i))
  if positive.length ≠ 0 then (strong.length : ℝ) / positive.length else 0

/-- `dominantOrientation`.  A gradient whose binned angle reaches exactly `2π`
would write `NaN` into a fresh ninth slot in JS; the model counts bins 0–7. -/
def dominantOrientation (threshold : ℝ) (edges : ℕ → ℝ) (width height : ℕ) :
    Orientation ℝ :=
  let interior := (List.range (width * height)).filter (fun idx =>
    decide (1 ≤ idx % width) && decide (idx % width + 1 < width) &&
    decide (1 ≤ idx / width) && decide (idx / width + 1 < height))
  let strong := interior.filter (fun idx => decide (threshold < edges idx))
  let binOf := fun (idx : ℕ) =>
    (⌊(jsAtan2 (edges (idx + width) - edges (idx - width))
        (edges (idx + 1) - edges (idx - 1)) + Real.pi) / (2 * Real.pi / 8)⌋).toNat
  let histogram := (List.range 8).map
    (fun b => ((strong.filter (fun idx => binOf idx == b)).length : ℝ))
  let maxBin := histogram.findIdx (fun v => decide (v = jsMaxList histogram))
  let total := histogram.foldl (· + ·) 0
  let entropy := histogram.foldl (fun e c =>
    if 0 < c then e - c / total * Real.logb 2 (c / total) else e) 0
  ⟨(maxBin : ℝ) * (2 * Real.pi) / 8 - Real.pi, entropy / Real.logb 2 8, histogram⟩

/-- `detectEdges`. -/
def detectEdges (data : ℕ → ℕ) (width height : ℕ) (threshold : ℝ) : Edges ℝ :=
  let m := edgeMapOf data width height
  ⟨m, calculateEdgeDensity threshold m (width * height),
    dominantOrientation threshold m width height⟩

/-! #### Shape extraction (`marchingSquares`, `extractShapes`) -/

/-- The eight contour-following direction vectors. -/
def directions : List (ℤ × ℤ) :=
  [(1, 0), (1, 1), (0, 1), (-1, 1), (-1, 0), (-1, -1), (0, -1), (1, -1)]

/-- The neighbour search of the contour walk: the first of the eight
directions (starting from the preferred one) that lands in bounds on an
unvisited strong-edge pixel, together with the next preferred direction. -/
def findNext (edgeMap : ℕ → ℝ) (threshold : ℝ) (width height : ℕ)
    (visited : List ℕ) (x y : ℤ) (direction : ℕ) : Option (ℤ × ℤ × ℕ) :=
  (List.range 8).findSome? (fun i =>
    let newDir := (direction + i) % 8
    let d := directions.getD newDir (0, 0)
    let nx := x + d.1
    let ny := y + d.2
    if 0 ≤ nx ∧ nx < (width : ℤ) ∧ 0 ≤ ny ∧ ny < (height : ℤ) then
      let nidx := (ny * (width : ℤ) + nx).toNat
      if threshold < edgeMap nidx ∧ ¬ nidx ∈ visited then some (nx, ny, (newDir + 6) % 8)
      else none
    else none)

/-- The do-while contour walk of `marchingSquares`: mark and record the
current pixel, stop when no neighbour is found or the walk closes on its
start; the fuel plays the `maxSteps = width·height` bound. -/
def walkLoop (edgeMap : ℕ → ℝ) (threshold : ℝ) (width height : ℕ)
    (startX startY : ℤ) :
    ℕ → List ℕ → List (ℤ × ℤ) → ℤ → ℤ → ℕ → List (ℤ × ℤ) × List ℕ
  | 0, visited, points, x, y, _ =>
      (points ++ [(x, y)], visited ++ [(y * (width : ℤ) + x).toNat])
  | fuel + 1, visited, points, x, y, direction =>
      let visited1 := visited ++ [(y * (width : ℤ) + x).toNat]
      let points1 := points ++ [(x, y)]
      match findNext edgeMap threshold width height visited1 x y direction with
      | none => (points1, visited1)
      | some (nx, ny, ndir) =>
          if nx ≠ startX ∨ ny ≠ startY then
            walkLoop edgeMap threshold width height startX startY fuel
              visited1 points1 nx ny ndir
          else (points1, visited1)

/-- `calculatePerimeter` over the closed point cycle. -/
def calculatePerimeter (points : List (ℤ × ℤ)) : ℝ :=
  if points.length < 2 then 0 else
    ((List.range points.length).map (fun i =>
      let p := points.getD i (0, 0)
      let q := points.getD ((i + 1) % points.length) (0, 0)
      Real.sqrt (((q.1 - p.1 : ℤ) : ℝ) * ((q.1 - p.1 : ℤ) : ℝ) +
        ((q.2 - p.2 : ℤ) : ℝ) * ((q.2 - p.2 : ℤ) : ℝ)))).foldl (· + ·) 0

/-- `calculateShapeSaliency` on a shape's area, perimeter and centroid. -/
def calculateShapeSaliency (area perimeter cx cy : ℝ) : ℝ :=
  let compactness := area / (perimeter * perimeter)
  let centerDistance := Real.sqrt ((cx - 140) ^ (2:ℕ) + (cy - 100) ^ (2:ℕ)) / 170
  let sizeFactor := min 1 (area / 1000)
  let compactnessFactor := compactness * 4
  let positionFactor := 1 - centerDistance
  sizeFactor * 0.4 + compactnessFactor * 0.3 + positionFactor * 0.3

/-- The final shape record of `marchingSquares`: area is the point count, the
bounding box folds from the start pixel, and `symbolWeight`/`type` are never
assigned (see `ShapeBase`). -/
def shapeFromPoints (startX startY : ℤ) (points : List (ℤ × ℤ)) : ShapeBase ℝ :=
  if points.length = 0 then
    ⟨[], (0, 0), 0, 0, ⟨(startX : ℝ), (startY : ℝ), (startX : ℝ), (startY : ℝ), 0, 0⟩,
      0, 0, none⟩
  else
    let len : ℝ := points.length
    let cx := ((points.foldl (fun a p => a + p.1) 0 : ℤ) : ℝ) / len
    let cy := ((points.foldl (fun a p => a + p.2) 0 : ℤ) : ℝ) / len
    let minX := points.foldl (fun a p => min a p.1) startX
    let maxX := points.foldl (fun a p => max a p.1) startX
    let minY := points.foldl (fun a p => min a p.2) startY
    let maxY := points.foldl (fun a p => max a p.2) startY
    let perimeter := calculatePerimeter points
    { points := points.map (fun p => ((p.1 : ℝ), (p.2 : ℝ)))
      centroid := (cx, cy)
      area := len
      perimeter := perimeter
      boundingBox := ⟨(minX : ℝ), (minY : ℝ), (maxX : ℝ), (maxY : ℝ),
        ((maxX - minX : ℤ) : ℝ), ((maxY - minY : ℤ) : ℝ)⟩
      saliency := calculateShapeSaliency len perimeter cx cy
      symbolWeight := 0
      type := none }

/-- `marchingSquares`: run the contour walk and build the shape,
returning the updated visited set. -/
def marchingSquares (edgeMap : ℕ → ℝ) (threshold : ℝ) (width height : ℕ)
    (visited : List ℕ) (startX startY : ℤ) : ShapeBase ℝ × List ℕ :=
  let r := walkLoop edgeMap threshold width height startX startY (width * height)
    visited [] startX startY 0
  (shapeFromPoints startX startY r.1, r.2)

/-- `extractShapes`: scan pixels in row-major order, tracing a contour from
every unvisited strong-edge pixel. -/
def extractShapes (edgeMap : ℕ → ℝ) (threshold : ℝ) (width height : ℕ) :
    List (ShapeBase ℝ) :=
  ((List.range (width * height)).foldl (fun acc idx =>
    if threshold < edgeMap idx ∧ ¬ idx ∈ acc.1 then
      let r := marchingSquares edgeMap threshold width height acc.1
        ((idx % width : ℕ) : ℤ) ((idx / width : ℕ) : ℤ)
      (r.2, if r.1.points.length ≠ 0 then acc.2 ++ [r.1] else acc.2)
    else acc) (([], []) : List ℕ × List (ShapeBase ℝ))).2

/-! #### Spatial analysis (`analyzeSpatial` and helpers) -/

/-- `calculateVariance` (a coefficient of variation, in fact). -/
def calculateVariance (values : List ℝ) : ℝ :=
  let mean := values.foldl (· + ·) (0 : ℝ) / values.length
  let variance := values.foldl (fun s v => s + (v - mean) ^ (2:ℕ)) (0 : ℝ) / values.length
  Real.sqrt variance / (mean + 0.001)

/-- `analyzeDistributionPattern`.  The JS `pattern` is assigned by successive
non-exclusive `if`s; the last matching test wins, modelled by testing in
reverse priority.  The empty case carries no `quadrants` field in JS (`[]`
here). -/
def analyzeDistributionPattern (shapes : List (ShapeBase ℝ)) (centerX centerY : ℝ) :
    Distribution ℝ :=
  if shapes.length = 0 then ⟨"empty", 1, 0, []⟩
  else
    let quadIdx := fun (s : ShapeBase ℝ) =>
      (if s.centroid.2 < centerY then 0 else 2) + (if s.centroid.1 < centerX then 0 else 1)
    let quadrants := (List.range 4).map (fun k =>
      (shapes.filter (fun s => quadIdx s == k)).foldl (fun a s => a + s.symbolWeight) 0)
    let total := quadrants.foldl (· + ·) 0
    let variance := calculateVariance quadrants
    let maxQuad := jsMaxList quadrants
    let q0 := quadrants.getD 0 0
    let q1 := quadrants.getD 1 0
    let q2 := quadrants.getD 2 0
    let q3 := quadrants.getD 3 0
    let pattern :=
      if |q0 + q3 - q1 - q2| / total > 0.3 then "diagonal"
      else if maxQuad / total > 0.6 then "clustered"
      else if variance > 0.3 then "asymmetric"
      else "balanced"
    ⟨pattern, 1 - variance, variance, quadrants⟩

/-- `estimateDepthMap`. -/
def estimateDepthMap (shapes : List (ShapeBase ℝ)) (width height : ℕ) : DepthMap ℝ :=
  let score := fun (s : ShapeBase ℝ) =>
    s.area / ((width : ℝ) * height) * 0.7 - s.centroid.2 / height * 0.3
  ⟨shapes.filter (fun s => decide (score s > 0.1)),
   shapes.filter (fun s => decide (¬ score s > 0.1 ∧ score s > 0)),
   shapes.filter (fun s => decide (¬ score s > 0.1 ∧ ¬ score s > 0))⟩

/-- `determinePrimaryFocus` (the unused center-of-mass argument is dropped). -/
def determinePrimaryFocus (shapes : List (ShapeBase ℝ)) (width height : ℕ) : String :=
  match shapes with
  | [] => "center"
  | primary :: _ =>
      let x := primary.centroid.1 / width
      let y := primary.centroid.2 / height
      if x < 0.33 then
        (if y < 0.33 then "top-left" else if y > 0.67 then "bottom-left" else "left")
      else if x > 0.67 then
        (if y < 0.33 then "top-right" else if y > 0.67 then "bottom-right" else "right")
      else (if y < 0.33 then "top" else if y > 0.67 then "bottom" else "center")

/-- `calculateAsymmetry` (the unused width argument is dropped). -/
def calculateAsymmetry (shapes : List (ShapeBase ℝ)) (centerX : ℝ) : ℝ :=
  if shapes.length = 0 then 0
  else
    let leftWeight := (shapes.filter (fun s => decide (s.centroid.1 < centerX))).foldl
      (fun a s => a + s.symbolWeight) 0
    let rightWeight := (shapes.filter (fun s => decide (¬ s.centroid.1 < centerX))).foldl
      (fun a s => a + s.symbolWeight) 0
    let total := leftWeight + rightWeight
    if total > 0 then |leftWeight - rightWeight| / total else 0

/-- `analyzeRadialDistribution` (bin-8 edge case as in `dominantOrientation`). -/
def analyzeRadialDistribution (shapes : List (ShapeBase ℝ)) (centerX centerY : ℝ) :
    Radial ℝ :=
  let binOf := fun (s : ShapeBase ℝ) =>
    (⌊(jsAtan2 (s.centroid.2 - centerY) (s.centroid.1 - centerX) + Real.pi) /
      (Real.pi / 4)⌋).toNat
  let sectors := (List.range 8).map (fun b =>
    (shapes.filter (fun s => binOf s == b)).foldl (fun a s => a + s.symbolWeight) 0)
  let maxBin := jsMaxList sectors
  let dominantSector := sectors.findIdx (fun v => decide (v = maxBin))
  let balance := 1 - (jsMaxList sectors - jsMinList sectors) / (jsMaxList sectors + 0.01)
  ⟨sectors, dominantSector, balance, if balance > 0.7 then "balanced" else "directional"⟩

/-- `analyzeSpatial` (its colors argument is unused in the source body). -/
def analyzeSpatial (shapes : List (ShapeBase ℝ)) (_colors : Colors ℝ)
    (width height : ℕ) (culture : String) : Spatial ℝ :=
  let totalMass := shapes.foldl (fun a s => a + s.area * s.symbolWeight) 0
  let sumX := shapes.foldl (fun a s => a + s.centroid.1 * (s.area * s.symbolWeight)) 0
  let sumY := shapes.foldl (fun a s => a + s.centroid.2 * (s.area * s.symbolWeight)) 0
  let centerX := if totalMass > 0 then sumX / totalMass else (width : ℝ) / 2
  let centerY := if totalMass > 0 then sumY / totalMass else (height : ℝ) / 2
  let distribution := analyzeDistributionPattern shapes centerX centerY
  { centerOfMass := (centerX, centerY)
    centralMass := totalMass / ((width : ℝ) * height)
    distribution := distribution
    depthMap := some (estimateDepthMap shapes width height)
    primaryFocus := determinePrimaryFocus shapes width height
    asymmetry := calculateAsymmetry shapes centerX
    radialDistribution := if culture = "japanese" ∨ culture = "norse" then
      some (analyzeRadialDistribution shapes centerX centerY) else none
    pattern := distribution.pattern }

/-- `calculateSaliency`. -/
def calculateSaliency (edges : Edges ℝ) (colors : Colors ℝ) (spatial : Spatial ℝ) : ℝ :=
  (edges.density + (1 - colors.harmony) + spatial.asymmetry) / 3

/-! #### Perception, emotion and the cultural lens -/

/-- A raw image: the flat RGBA byte array is a total function of byte index
(its length is `width * height * 4`). -/
structure ImageData where
  width : ℕ
  height : ℕ
  data : ℕ → ℕ

/-- The `analyzePerception` result. -/
structure Perception where
  edges : Edges ℝ
  shapes : List (ShapeBase ℝ)
  colors : Colors ℝ
  spatial : Spatial ℝ
  saliency : ℝ

/-- `analyzePerception` with the constructor's `EDGE_THRESHOLD`
(`mode === 'mobile' ? 50 : 30`) resolved from the mode. -/
def analyzePerception (mode culture : String) (img : ImageData) (rand : ℕ → ℝ) :
    Perception :=
  let threshold : ℝ := if mode = "mobile" then 50 else 30
  let edges := detectEdges img.data img.width img.height threshold
  let shapes := extractShapes edges.map threshold img.width img.height
  let colors := analyzeColors rand img.data img.width img.height
  let spatial := analyzeSpatial shapes colors img.width img.height culture
  ⟨edges, shapes, colors, spatial, calculateSaliency edges colors spatial⟩

/-- `sigmoid`. -/
def sigmoid (x : ℝ) : ℝ := 1 / (1 + Real.exp (-x))

/-- A contextual emotion as supplied by callers; the default
`{valence: 0.5, arousal: 0.5}` carries no `dominance` field, hence the
`Option`. -/
structure ContextVAD where
  valence : ℝ
  arousal : ℝ
  dominance : Option ℝ

/-- The optional `context` argument of `encode`. -/
structure EncodeContext where
  emotion : Option ContextVAD

/-- One entry of the encoder's `emotionalBuffer`. -/
structure BufferEntry where
  timestamp : ℕ
  visual : EmotionVAD ℝ
  contextual : ContextVAD

/-- `extractVisualEmotion`. -/
def extractVisualEmotion (p : Perception) : EmotionVAD ℝ :=
  let edgeChaos := p.edges.density * p.edges.orientation.entropy
  ⟨sigmoid (p.colors.temperature - 0.5 + p.colors.harmony * 0.3),
   sigmoid (edgeChaos + p.spatial.asymmetry - 0.5),
   sigmoid (p.spatial.centralMass - 0.5)⟩

/-- `blendEmotions` with `alpha = 0.7`; a missing or zero contextual
dominance falls back to `0.5` through JS `||`. -/
def blendEmotions (visual : EmotionVAD ℝ) (contextual : ContextVAD) : EmotionVAD ℝ :=
  ⟨visual.valence * 0.7 + contextual.valence * (1 - 0.7),
   visual.arousal * 0.7 + contextual.arousal * (1 - 0.7),
   visual.dominance * 0.7 + jsOr contextual.dominance 0.5 * (1 - 0.7)⟩

/-- `calculateEmotionalTrajectory` over the buffer (`slice(-3)` keeps the
last three entries). -/
def calculateEmotionalTrajectory (buffer : List BufferEntry) : String :=
  if buffer.length < 2 then "stable"
  else
    let recent := buffer.drop (buffer.length - 3)
    let steps := recent.zip recent.tail
    let n : ℝ := ((recent.length - 1 : ℕ) : ℝ)
    let valenceChange := (steps.foldl
      (fun a pr => a + (pr.2.visual.valence - pr.1.visual.valence)) 0) / n
    let arousalChange := (steps.foldl
      (fun a pr => a + (pr.2.visual.arousal - pr.1.visual.arousal)) 0) / n
    if |valenceChange| < 0.1 ∧ |arousalChange| < 0.1 then "stable"
    else if valenceChange > 0.1 ∧ arousalChange > 0.1 then "escalating"
    else if valenceChange < -0.1 ∧ arousalChange < -0.1 then "calming"
    else if valenceChange > 0.1 then "brightening"
    else if valenceChange < -0.1 then "darkening"
    else if arousalChange > 0.1 then "intensifying"
    else "relaxing"

/-- `calculateEmotionalResonance` (an empty palette would divide `0/0`,
which JS turns into `NaN` and the model into `0`; the palette is never empty
since clustering always yields a cluster). -/
def calculateEmotionalResonance (p : Perception) : ℝ :=
  let colorResonance := (p.colors.emotionalPalette.foldl
    (fun a c => a + c.emotionalWeight) (0 : ℝ)) / p.colors.emotionalPalette.length
  let spatialResonance := p.spatial.asymmetry * 0.5 + 0.5
  (colorResonance + spatialResonance + p.edges.density) / 3

/-- `analyzeEmotion`: push the new entry, trim the buffer to ten entries,
and blend; returns the emotion together with the updated buffer
(`this.emotionalBuffer` state passed explicitly). -/
def analyzeEmotion (p : Perception) (ctx : EncodeContext) (now : ℕ)
    (buffer : List BufferEntry) : Emotion ℝ × List BufferEntry :=
  let visualEmotion := extractVisualEmotion p
  let contextualEmotion := ctx.emotion.getD ⟨0.5, 0.5, none⟩
  let buffer1 := buffer ++ [⟨now, visualEmotion, contextualEmotion⟩]
  let buffer2 := if 10 < buffer1.length then buffer1.drop 1 else buffer1
  (⟨blendEmotions visualEmotion contextualEmotion,
    calculateEmotionalTrajectory buffer2,
    calculateEmotionalResonance p⟩, buffer2)

/-- A cultural grammar: color-name weights and symbols, the spatial priority
and shape-type significances. -/
structure CulturalGrammar where
  colors : String → Option (ℝ × String)
  spatialPriority : String
  shapes : String → Option ℝ

/-- `loadCulturalGrammar` (unknown cultures fall back to `universal`). -/
def loadCulturalGrammar (culture : String) : CulturalGrammar :=
  if culture = "japanese" then
    { colors := fun n =>
        if n = "red" then some (1.2, "life")
        else if n = "white" then some (1.3, "death")
        else if n = "black" then some (0.8, "formality") else none
      spatialPriority := "radial"
      shapes := fun t =>
        if t = "circle" then some 1.2 else if t = "organic" then some 1.5 else none }
  else if culture = "norse" then
    { colors := fun n =>
        if n = "red" then some (1.3, "battle")
        else if n = "blue" then some (0.9, "ice")
        else if n = "gold" then some (1.4, "glory") else none
      spatialPriority := "radial"
      shapes := fun t =>
        if t = "triangle" then some 1.3 else if t = "angular" then some 1.2 else none }
  else
    { colors := fun n =>
        if n = "red" then some (1.0, "passion")
        else if n = "blue" then some (1.0, "calm")
        else if n = "green" then some (1.0, "nature")
        else if n = "white" then some (1.0, "purity")
        else if n = "black" then some (1.0, "mystery") else none
      spatialPriority := "cartesian"
      shapes := fun t =>
        if t = "circle" then some 1.0 else if t = "rectangle" then some 0.8
        else if t = "triangle" then some 0.9 else if t = "organic" then some 1.1
        else none }

/-- The reference colors of `nearestColorName`, in source order. -/
def colorRefs : List (String × RgbV ℝ) :=
  [("red", ⟨255, 0, 0⟩), ("green", ⟨0, 255, 0⟩), ("blue", ⟨0, 0, 255⟩),
   ("white", ⟨255, 255, 255⟩), ("black", ⟨0, 0, 0⟩), ("yellow", ⟨255, 255, 0⟩),
   ("cyan", ⟨0, 255, 255⟩), ("magenta", ⟨255, 0, 255⟩), ("gold", ⟨255, 215, 0⟩)]

/-- `nearestColorName` (`minDistance = Infinity` start: the first reference
always beats the empty accumulator). -/
def nearestColorName (color : RgbV ℝ) : String :=
  (colorRefs.foldl (fun (acc : Option ℝ × String) nr =>
      let d := calculateCIEDE2000 color nr.2
      match acc.1 with
      | none => (some d, nr.1)
      | some m => if d < m then (some d, nr.1) else acc)
    (none, "unknown")).2

/-- `mapRadialToFocus`. -/
def mapRadialToFocus (sector : ℕ) : String :=
  ["east", "northeast", "north", "northwest", "west", "southwest", "south",
    "southeast"].getD sector "center"

/-- `convertToRadialSpace`: JS replaces the Cartesian `centerOfMass` with an
`{r, theta}` record, embedded here into the same pair slot. -/
def convertToRadialSpace (spatial : Spatial ℝ) : Spatial ℝ :=
  match spatial.radialDistribution with
  | none => spatial
  | some radial =>
      { spatial with
        primaryFocus := mapRadialToFocus radial.dominantSector
        pattern := radial.pattern
        centerOfMass := (Real.sqrt ((spatial.centerOfMass.1 - 0.5) ^ (2:ℕ) +
            (spatial.centerOfMass.2 - 0.5) ^ (2:ℕ)),
          jsAtan2 (spatial.centerOfMass.2 - 0.5) (spatial.centerOfMass.1 - 0.5)) }

/-- `applyCulturalLens` (the deep clone is identity on values; its emotion
argument is unused in the source body).  Weights use JS `||` with default 1. -/
def applyCulturalLens (culture : String) (p : Perception) (_emotion : Emotion ℝ) :
    CulturalPerception ℝ :=
  let grammar := loadCulturalGrammar culture
  let clusters : List (CulCluster ℝ) := p.colors.dominantClusters.map (fun cl =>
    let culturalMeaning := grammar.colors (nearestColorName cl.center)
    { cl with
      culturalWeight := jsOr (culturalMeaning.map Prod.fst) 1
      culturalSymbol := culturalMeaning.map Prod.snd })
  let spatial := if grammar.spatialPriority = "radial" then
    convertToRadialSpace p.spatial else p.spatial
  let shapes : List (CulShape ℝ) := p.shapes.map (fun s =>
    { s with culturalWeight := s.symbolWeight * jsOr (grammar.shapes (jsString s.type)) 1 })
  { edges := p.edges
    shapes := shapes
    colors := { dominantClusters := clusters
                emotionalPalette := p.colors.emotionalPalette
                harmony := p.colors.harmony
                temperature := p.colors.temperature }
    spatial := spatial
    saliency := p.saliency }

/-- `PerceptualAlchemyEncoder.encode`: validate the input, analyse, encode
and append the checksum.  The mutable `emotionalBuffer` is threaded
explicitly, `Date.now()` enters as `now`, and the `Math.random()` stream as
`rand`.  The returned `analysis`/`confidence`/`narrative` fields of the JS
result object are not modelled (none of them feed the code string; the
narrative generator consumes further stream draws only after the code is
fixed). -/
def encode (mode culture : String) (img : ImageData) (ctx : EncodeContext)
    (rand : ℕ → ℝ) (now : ℕ) (buffer : List BufferEntry) :
    Except String (List Char × List BufferEntry) :=
  if img.width = 0 ∨ img.height = 0 then .error "Invalid ImageData provided"
  else if img.width < 16 ∨ img.height < 16 then .error "Image too small (minimum 16x16)"
  else
    let perception := analyzePerception mode culture img rand
    let r := analyzeEmotion perception ctx now buffer
    let culturalPerception := applyCulturalLens culture perception r.1
    match encodeToSymbols mode (img.width : ℝ) (img.height : ℝ) culturalPerception r.1 with
    | .error e => .error e
    | .ok code => .ok (addReedSolomonErrorCorrection code, r.2)

/-! #### A concrete two-pixel image and two encode runs -/

/-- Bytes of a 16×16 RGBA image: pixel `(0,0)` opaque white, pixel `(12,12)`
(byte offset 816) opaque black, every other pixel transparent. -/
def c4data (i : ℕ) : ℕ :=
  if i ≤ 3 then 255
  else if i = 819 then 255
  else 0

/-- The 16×16 two-pixel image. -/
def c4img : ImageData := ⟨16, 16, c4data⟩

/-- A random stream whose first draw is `0`, later draws `1/2`. -/
def c4rand1 : ℕ → ℝ := fun n => if n = 0 then 0 else 1/2

/-- A random stream drawing `1/2` throughout. -/
def c4rand2 : ℕ → ℝ := fun _ => 1/2

/-- First encode run on the two-pixel image (empty context, fresh buffer). -/
def c4run1 : Except String (List Char × List BufferEntry) :=
  encode "balanced" "universal" c4img ⟨none⟩ c4rand1 0 []

/-- The emotional buffer left behind by the first run. -/
def c4buf1 : List BufferEntry := ((Except.toOption c4run1).map Prod.snd).getD []

/-- Second encode run: same image, context, mode and culture, one time tick
later, different random draws. -/
def c4run2 : Except String (List Char × List BufferEntry) :=
  encode "balanced" "universal" c4img ⟨none⟩ c4rand2 1 c4buf1

end RealPipeline

/-! ## Theorems -/

/-- The source's trial re-verification compares the recomputed checksum of the
corrected payload with itself, so it always succeeds. -/
theorem verifyChecksum_self (payload : List Char) :
    verifyChecksum payload (calculateChecksum payload) = true := by
  simp [verifyChecksum]

/-- The correction scan from position `i` returns the first confusable
character of the tail replaced by its partner, independent of any checksum. -/
theorem attemptCorrectionFrom_eq (code : List Char) (fuel : ℕ) :
    ∀ i, code.length ≤ i + fuel →
      attemptCorrectionFrom code i fuel =
        (replaceFirstConfusable (code.drop i)).map (code.take i ++ ·) := by
  induction fuel with
  | zero =>
      intro i hi
      rw [attemptCorrectionFrom]
      rw [List.drop_eq_nil_of_le (by omega)]
      rfl
  | succ fuel ihn =>
      intro i hi
      rw [attemptCorrectionFrom]
      by_cases h : i < code.length
      · have hdrop : code.drop i = code.get ⟨i, h⟩ :: code.drop (i + 1) :=
          List.drop_eq_getElem_cons h
        have htake : code.take (i + 1) = code.take i ++ [code.get ⟨i, h⟩] := by
          rw [List.take_succ]
          simp [List.getElem?_eq_getElem h]
        simp only [h, dite_true]
        cases hc : commonErrors (code.get ⟨i, h⟩) with
        | some sub =>
            rw [hdrop]
            simp only [replaceFirstConfusable, hc, verifyChecksum_self, if_true,
              Option.map_some']
        | none =>
            rw [ihn (i + 1) (by omega), hdrop]
            simp only [replaceFirstConfusable, hc]
            cases hrfc : replaceFirstConfusable (code.drop (i + 1)) with
            | none => rfl
            | some x =>
                simp only [Option.map_some']
                rw [htake, List.append_assoc]
                rfl
      · simp only [h, dite_false]
        rw [List.drop_eq_nil_of_le (by omega)]
        rfl

/-- `attemptErrorCorrection` replaces the first confusable character,
regardless of the received checksum. -/
theorem attemptErrorCorrection_eq (code : List Char) :
    attemptErrorCorrection code = replaceFirstConfusable code := by
  have h := attemptCorrectionFrom_eq code code.length 0 (by omega)
  simpa [attemptErrorCorrection] using h

/-- A character has a confusable partner exactly when it is one of
`0, O, 1, I, 5, S`. -/
theorem commonErrors_isSome_iff (c : Char) :
    (commonErrors c).isSome = true ↔ c ∈ ['0', 'O', '1', 'I', '5', 'S'] := by
  simp only [commonErrors]
  split_ifs <;> simp_all

/-- `replaceFirstConfusable` succeeds exactly when some character is
confusable. -/
theorem replaceFirstConfusable_isSome (code : List Char) :
    (replaceFirstConfusable code).isSome = true ↔
      code.any (fun c => (commonErrors c).isSome) = true := by
  induction code with
  | nil => simp [replaceFirstConfusable]
  | cons c rest ih =>
      cases hc : commonErrors c with
      | some sub => simp [replaceFirstConfusable, hc]
      | none => simp [replaceFirstConfusable, hc, ih]

/-- On a buffer within capacity, `addToMemory` keeps the newest suffix. -/
theorem addToMemory_eq_drop {α : Type} (maxMem : ℕ) (e : α) (buf : List α)
    (h : buf.length ≤ maxMem) :
    addToMemory maxMem e buf = (buf ++ [e]).drop (buf.length + 1 - maxMem) := by
  unfold addToMemory
  simp only [List.length_append, List.length_singleton]
  by_cases hlt : maxMem < buf.length + 1
  · have hone : buf.length + 1 - maxMem = 1 := by omega
    rw [if_pos hlt, hone, ← List.drop_one]
  · have hzero : buf.length + 1 - maxMem = 0 := by omega
    rw [if_neg hlt, hzero, List.drop_zero]

/-- Folding `addToMemory` keeps exactly the newest within-capacity suffix of
everything ever pushed. -/
theorem addToMemory_foldl {α : Type} (maxMem : ℕ) (es : List α) :
    ∀ buf : List α, buf.length ≤ maxMem →
      es.foldl (fun b e => addToMemory maxMem e b) buf =
        (buf ++ es).drop (buf.length + es.length - maxMem) := by
  induction es with
  | nil =>
      intro buf h
      simp [Nat.sub_eq_zero_of_le h]
  | cons e es ih =>
      intro buf h
      rw [List.foldl_cons]
      have hstep := addToMemory_eq_drop maxMem e buf h
      have hlen3 : (addToMemory maxMem e buf).length =
          buf.length + 1 - (buf.length + 1 - maxMem) := by
        rw [hstep]
        simp only [List.length_drop, List.length_append, List.length_singleton]
      have hlen2 : (addToMemory maxMem e buf).length ≤ maxMem := by omega
      have hd : buf.length + 1 - maxMem ≤ (buf ++ [e]).length := by
        simp only [List.length_append, List.length_singleton]
        omega
      rw [ih _ hlen2, hlen3, hstep, ← List.drop_append_of_le_length hd,
        List.drop_drop, List.append_assoc, List.singleton_append]
      congr 1
      simp only [List.length_cons]
      omega

/-- The last entry appended is always the last element of the buffer. -/
theorem addToMemory_getLast {α : Type} (maxMem : ℕ) (e : α) (buf : List α)
    (h : 0 < maxMem) : (addToMemory maxMem e buf).getLast? = some e := by
  unfold addToMemory
  simp only [List.length_append, List.length_singleton]
  by_cases hlt : maxMem < buf.length + 1
  · rw [if_pos hlt]
    cases buf with
    | nil =>
        simp only [List.length_nil] at hlt
        omega
    | cons b bs => simp [List.getLast?_concat]
  · rw [if_neg hlt]
    exact List.getLast?_concat _

/-- C7: after `N > maxMemorySize` successful encodes the FIFO memory buffer of
`PerceptualSystem` has length exactly `maxMemorySize` and holds the most
recent entries in chronological order (the suffix of the append-ordered
entry list). -/
theorem memory_buffer_fifo {α : Type} (entries : List α) (maxMem : ℕ)
    (hN : maxMem < entries.length) :
    (entries.foldl (fun b e => addToMemory maxMem e b) []).length = maxMem ∧
    entries.foldl (fun b e => addToMemory maxMem e b) [] =
      entries.drop (entries.length - maxMem) := by
  have h := addToMemory_foldl maxMem entries [] (by simp)
  simp only [List.nil_append, List.length_nil, Nat.zero_add] at h
  refine ⟨?_, h⟩
  rw [h]
  simp only [List.length_drop]
  omega

/-- Witness for `memory_buffer_fifo` at four entries and capacity two. -/
theorem memory_buffer_fifo_witness :
    2 < ([10, 20, 30, 40] : List ℕ).length ∧
    (([10, 20, 30, 40] : List ℕ).foldl (fun b e => addToMemory 2 e b) []).length = 2 ∧
    ([10, 20, 30, 40] : List ℕ).foldl (fun b e => addToMemory 2 e b) [] =
      ([10, 20, 30, 40] : List ℕ).drop (([10, 20, 30, 40] : List ℕ).length - 2) :=
  ⟨by decide, (memory_buffer_fifo [10, 20, 30, 40] 2 (by decide)).1,
    (memory_buffer_fifo [10, 20, 30, 40] 2 (by decide)).2⟩

/-- C9: `PerceptualSystem.encode` leaves the memory buffer unchanged whenever
the encoder throws or the produced code fails the `SymbolValidator`
self-check (the error propagating to the caller), and appends exactly the one
new entry on success. -/
theorem psEncode_memory_discipline {γ ε : Type} (maxMem now : ℕ) (ctx : γ)
    (encRes : Except String (EncResultShape ε)) (buf : List (MemoryEntry γ ε)) :
    (∀ msg, encRes = .error msg →
      psEncode maxMem now ctx encRes buf = (.error msg, buf)) ∧
    (∀ r, encRes = .ok r → svValidate r.code = false →
      psEncode maxMem now ctx encRes buf = (.error "Invalid encoding produced", buf)) ∧
    (∀ r, encRes = .ok r → svValidate r.code = true →
      psEncode maxMem now ctx encRes buf =
        (.ok r, addToMemory maxMem ⟨r.code, now, ctx, r.emotion⟩ buf) ∧
      (0 < maxMem →
        (psEncode maxMem now ctx encRes buf).2.getLast? =
          some ⟨r.code, now, ctx, r.emotion⟩)) := by
  refine ⟨?_, ?_, ?_⟩
  · rintro msg rfl
    rfl
  · rintro r rfl hv
    simp [psEncode, hv]
  · rintro r rfl hv
    refine ⟨by simp [psEncode, hv], fun hpos => ?_⟩
    simp [psEncode, hv, addToMemory_getLast _ _ _ hpos]

/-- Witness for `psEncode_memory_discipline` on a concrete self-checking
17-character code. -/
theorem psEncode_memory_discipline_witness :
    svValidate (List.replicate 17 'A') = true ∧
    psEncode 2 5 () (Except.ok ⟨List.replicate 17 'A', ()⟩)
        ([] : List (MemoryEntry Unit Unit)) =
      (.ok ⟨List.replicate 17 'A', ()⟩,
        addToMemory 2 ⟨List.replicate 17 'A', 5, (), ()⟩ []) ∧
    (psEncode 2 5 () (Except.ok ⟨List.replicate 17 'A', ()⟩)
        ([] : List (MemoryEntry Unit Unit))).2.getLast? =
      some ⟨List.replicate 17 'A', 5, (), ()⟩ :=
  ⟨by decide,
    ((psEncode_memory_discipline 2 5 () _ []).2.2 _ rfl (by decide)).1,
    ((psEncode_memory_discipline 2 5 () _ []).2.2 _ rfl (by decide)).2 (by decide)⟩

/-- C2: `PerceptualSystem.decode` on any string rejected by the validator
returns (without raising) the fully structured fallback experience — a value
of `DecodedExperience`, so every top-level field is present — with
`metadata.confidence = 0`, whatever the inner decoder would have done. -/
theorem psDecode_malformed_fallback (code : List Char)
    (decodeRes : Except String DecodedExperience)
    (h : svValidate code = false) :
    psDecode code decodeRes = generateFallbackExperience code ∧
    (psDecode code decodeRes).metadata.confidence = 0 := by
  constructor
  · simp [psDecode, h]
  · simp [psDecode, h, generateFallbackExperience]

/-- Witness for `psDecode_malformed_fallback` on a short malformed string. -/
theorem psDecode_malformed_fallback_witness :
    svValidate "@@@@".toList = false ∧
    psDecode "@@@@".toList (.error "decoder exception") =
      generateFallbackExperience "@@@@".toList ∧
    (psDecode "@@@@".toList (.error "decoder exception")).metadata.confidence = 0 :=
  ⟨by decide, (psDecode_malformed_fallback _ _ (by decide)).1,
    (psDecode_malformed_fallback _ _ (by decide)).2⟩

/-- C3: for the valid code `IBBBB0BBBBBBBBBBJ`, replacing its single `'0'`
(position 5) by `'O'` makes `validateAndCorrect` report success but return
the payload `1BBBBOBBBBBBBBBB` — the scan replaced the earlier confusable
`'I'` and the vacuous re-verification accepted it — so the original payload
is not recovered. -/
theorem single_substitution_not_recovered :
    verifyChecksum "IBBBB0BBBBBBBBBB".toList
      (calculateChecksum "IBBBB0BBBBBBBBBB".toList) = true ∧
    "IBBBB0BBBBBBBBBB".toList ++ [calculateChecksum "IBBBB0BBBBBBBBBB".toList] =
      "IBBBB0BBBBBBBBBBJ".toList ∧
    "IBBBBOBBBBBBBBBBJ".toList = ("IBBBB0BBBBBBBBBBJ".toList).set 5 'O' ∧
    ("IBBBB0BBBBBBBBBBJ".toList)[5]? = some '0' ∧
    (validateAndCorrect "IBBBBOBBBBBBBBBBJ".toList).valid = true ∧
    (validateAndCorrect "IBBBBOBBBBBBBBBBJ".toList).code =
      some "1BBBBOBBBBBBBBBB".toList ∧
    some "IBBBB0BBBBBBBBBB".toList ≠
      (validateAndCorrect "IBBBBOBBBBBBBBBBJ".toList).code := by decide

/-- C10: for a trimmed input passing the character-set and length check whose
trailing checksum does not match, `validateAndCorrect` accepts exactly when
the payload contains a character in `0, O, 1, I, 5, S`, and then returns the
payload with its first such character swapped (the re-verification being
against a checksum recomputed from the corrected payload itself). -/
theorem validateAndCorrect_mismatch_behavior (s : List Char)
    (htrim : jsTrim s = s)
    (hchars : s.all decoderFormatCharOk = true)
    (hlo : 16 ≤ s.length) (hhi : s.length ≤ 33)
    (hck : verifyChecksum s.dropLast (s.getLastD ' ') = false) :
    ((validateAndCorrect s).valid = true ↔
      ∃ c ∈ s.dropLast, c ∈ ['0', 'O', '1', 'I', '5', 'S']) ∧
    (validateAndCorrect s).code = replaceFirstConfusable s.dropLast := by
  have hiff : (replaceFirstConfusable s.dropLast).isSome = true ↔
      ∃ c ∈ s.dropLast, c ∈ ['0', 'O', '1', 'I', '5', 'S'] := by
    rw [replaceFirstConfusable_isSome]
    simp only [List.any_eq_true]
    constructor
    · rintro ⟨c, hc, hp⟩
      exact ⟨c, hc, (commonErrors_isSome_iff c).mp hp⟩
    · rintro ⟨c, hc, hp⟩
      exact ⟨c, hc, (commonErrors_isSome_iff c).mpr hp⟩
  have hres : validateAndCorrect s =
      match replaceFirstConfusable s.dropLast with
      | some corrected => { valid := true, code := some corrected, corrected := true }
      | none => { valid := false, error := some "Checksum validation failed" } := by
    simp only [validateAndCorrect, htrim, hchars, hlo, hhi, hck,
      attemptErrorCorrection_eq, and_self, not_true_eq_false, if_false,
      Bool.false_eq_true, ite_false]
  rw [hres]
  cases hrfc : replaceFirstConfusable s.dropLast with
  | none =>
      rw [hrfc] at hiff
      simp only [Option.isSome_none, Bool.false_eq_true, false_iff] at hiff
      simpa using hiff
  | some x =>
      rw [hrfc] at hiff
      simp only [Option.isSome_some, true_iff] at hiff
      simpa using hiff

/-- Witness for `validateAndCorrect_mismatch_behavior`: a format-valid code
with a wrong checksum whose payload holds confusable characters. -/
theorem validateAndCorrect_mismatch_behavior_witness :
    jsTrim "IBBBB0BBBBBBBBBBA".toList = "IBBBB0BBBBBBBBBBA".toList ∧
    ("IBBBB0BBBBBBBBBBA".toList.all decoderFormatCharOk = true ∧
      16 ≤ "IBBBB0BBBBBBBBBBA".toList.length ∧
      "IBBBB0BBBBBBBBBBA".toList.length ≤ 33 ∧
      verifyChecksum "IBBBB0BBBBBBBBBBA".toList.dropLast
        ("IBBBB0BBBBBBBBBBA".toList.getLastD ' ') = false) ∧
    ((validateAndCorrect "IBBBB0BBBBBBBBBBA".toList).valid = true ↔
      ∃ c ∈ "IBBBB0BBBBBBBBBBA".toList.dropLast,
        c ∈ ['0', 'O', '1', 'I', '5', 'S']) ∧
    (validateAndCorrect "IBBBB0BBBBBBBBBBA".toList).code =
      replaceFirstConfusable "IBBBB0BBBBBBBBBBA".toList.dropLast :=
  ⟨by decide, ⟨by decide, by decide, by decide, by decide⟩,
    (validateAndCorrect_mismatch_behavior _ (by decide) (by decide) (by decide)
      (by decide) (by decide)).1,
    (validateAndCorrect_mismatch_behavior _ (by decide) (by decide) (by decide)
      (by decide) (by decide)).2⟩

/-! ### Character-class and segment-structure lemmas -/

/-- An in-range `getD` hits a member of the list. -/
theorem getD_mem_of_lt {α : Type} (l : List α) (i : ℕ) (d : α) (h : i < l.length) :
    l.getD i d ∈ l := by
  rw [List.getD_eq_getElem?_getD, List.getElem?_eq_getElem h]
  exact List.getElem_mem h

/-- `getSymbol` of a known category lands in that category's vocabulary. -/
theorem getSymbol_mem (cat v : String) (vocab : List Char)
    (h : vocabularies cat = some vocab) (hpos : 0 < vocab.length) :
    getSymbol cat v ∈ vocab := by
  unfold getSymbol
  rw [h]
  exact getD_mem_of_lt _ _ _ (Nat.mod_lt _ hpos)

/-- `Char.ofNat` is faithful on the `A`–`Z` band the encoder uses. -/
theorem charCode_ofNat_add65 (k : ℕ) (h : k ≤ 25) :
    charCode (Char.ofNat (65 + k)) = 65 + k := by
  interval_cases k <;> decide

/-- Quantized symbols are uppercase letters. -/
theorem quantizeToSymbol_code {K : Type} [LinearOrderedField K] [FloorRing K]
    (v : K) :
    65 ≤ charCode (quantizeToSymbol v) ∧ charCode (quantizeToSymbol v) ≤ 90 := by
  unfold quantizeToSymbol
  have h2 : max 0 (min 25 ⌊v * 25⌋) ≤ 25 := max_le (by norm_num) (min_le_left _ _)
  have h3 : (max 0 (min 25 ⌊v * 25⌋)).toNat ≤ 25 :=
    Int.toNat_le.mpr (by exact_mod_cast h2)
  rw [charCode_ofNat_add65 _ h3]
  omega

/-- The checksum symbol is an uppercase letter. -/
theorem parity_code (data : List Char) :
    65 ≤ charCode (generateReedSolomonParity data) ∧
    charCode (generateReedSolomonParity data) ≤ 90 := by
  unfold generateReedSolomonParity
  have h : weightedSumFrom data 0 % 26 ≤ 25 := by
    have := Nat.mod_lt (weightedSumFrom data 0) (y := 26) (by norm_num)
    omega
  rw [charCode_ofNat_add65 _ h]
  omega

/-- Characters in the validator class are never whitespace. -/
theorem svCharOk_not_ws (c : Char) (h : svCharOk c = true) :
    c.isWhitespace = false := by
  by_contra hw
  simp only [Bool.not_eq_false] at hw
  simp only [Char.isWhitespace, Bool.or_eq_true, decide_eq_true_eq] at hw
  rcases hw with ((hh | hh) | hh) | hh <;> subst hh <;> exact absurd h (by decide)

/-- The three ASCII bands of the validator class. -/
theorem svCharOk_of_range (c : Char)
    (h : (65 ≤ charCode c ∧ charCode c ≤ 90) ∨
      (97 ≤ charCode c ∧ charCode c ≤ 122) ∨
      (48 ≤ charCode c ∧ charCode c ≤ 57)) : svCharOk c = true := by
  simp only [svCharOk, decoderFormatCharOk, Bool.or_eq_true, Bool.and_eq_true,
    decide_eq_true_eq]
  omega

/-- The spatial segment's reserved alphabet sits inside Σ. -/
theorem spatialCharOk_svCharOk (c : Char) (h : spatialCharOk c = true) :
    svCharOk c = true := by
  simp only [spatialCharOk, Bool.or_eq_true, Bool.and_eq_true,
    decide_eq_true_eq] at h
  rcases h with hmem | ⟨h1, h2⟩
  · fin_cases hmem <;> decide
  · exact svCharOk_of_range c (Or.inl ⟨h1, h2⟩)

/-- Object vocabulary characters are lowercase letters. -/
theorem objectVocab_lower : ∀ c ∈ "abcdefghijklmnopqrstuvwxyz".toList,
    97 ≤ charCode c ∧ charCode c ≤ 122 := by decide

/-- Position-tag characters are lowercase letters. -/
theorem posChars_lower : ∀ c ∈ "abcdefghi".toList,
    97 ≤ charCode c ∧ charCode c ≤ 122 := by decide

/-- Scene vocabulary is inside Σ. -/
theorem sceneVocab_sv : ∀ c ∈ "ABCDEFGHIJ".toList, svCharOk c = true := by decide

/-- Light vocabulary is inside Σ. -/
theorem lightVocab_sv : ∀ c ∈ "KLMNOP".toList, svCharOk c = true := by decide

/-- Mood vocabulary is inside Σ. -/
theorem moodVocab_sv : ∀ c ∈ "QRSTUV".toList, svCharOk c = true := by decide

/-- The four reserved complexity marks are inside Σ. -/
theorem complexityVocab_sv : ∀ c ∈ "αβγδ".toList, svCharOk c = true := by decide

/-- Trend vocabulary is inside Σ. -/
theorem trendVocab_sv : ∀ c ∈ "56789".toList, svCharOk c = true := by decide

/-- Depth vocabulary is inside the spatial segment's reserved alphabet. -/
theorem depthVocab_spatial : ∀ c ∈ "!@#$%".toList, spatialCharOk c = true := by
  decide

/-- Focus vocabulary is inside the spatial segment's reserved alphabet. -/
theorem wxyzVocab_spatial : ∀ c ∈ "WXYZ".toList, spatialCharOk c = true := by
  decide

/-- Distribution vocabulary is inside the spatial segment's reserved
alphabet. -/
theorem distVocab_spatial : ∀ c ∈ "01234".toList, spatialCharOk c = true := by
  decide

/-- `padEnd` pads exactly up to the requested length. -/
theorem padEnd_length (l : List Char) (n : ℕ) (c : Char) :
    (padEnd l n c).length = max n l.length := by
  simp only [padEnd, List.length_append, List.length_replicate]
  omega

/-- `getSymbolWithLength` emits exactly the requested positive length. -/
theorem getSymbolWithLength_length (cat v : String) (n : ℕ) (h : 1 ≤ n) :
    (getSymbolWithLength cat v n).length = n := by
  unfold getSymbolWithLength
  split <;>
    · simp only [List.length_take, List.length_cons, List.length_map,
        List.length_range']
      omega

/-- A single-character position tag. -/
theorem encodePosition_one_length {K : Type} [LinearOrderedField K] [FloorRing K]
    (imgW imgH : K) (cen : K × K) (bb : Option (BBox K)) :
    (encodePosition imgW imgH cen bb 1).length = 1 := by
  simp [encodePosition]

/-- The single-character position tag is one of `abcdefghi`. -/
theorem encodePosition_one_mem {K : Type} [LinearOrderedField K] [FloorRing K]
    (imgW imgH : K) (cen : K × K) (bb : Option (BBox K)) :
    ∀ c ∈ encodePosition imgW imgH cen bb 1, c ∈ "abcdefghi".toList := by
  intro c hc
  unfold encodePosition at hc
  rw [if_pos rfl] at hc
  have hlt : (max 0 (min 8 (⌊cen.2 / imgH * 3⌋ * 3 + ⌊cen.1 / imgW * 3⌋))).toNat < 9 := by
    have h2 : max 0 (min 8 (⌊cen.2 / imgH * 3⌋ * 3 + ⌊cen.1 / imgW * 3⌋)) ≤ 8 :=
      max_le (by norm_num) (min_le_left _ _)
    have := Int.toNat_le.mpr (show max 0 (min 8 (⌊cen.2 / imgH * 3⌋ * 3 + ⌊cen.1 / imgW * 3⌋)) ≤ (8 : ℕ) by exact_mod_cast h2)
    omega
  rcases List.mem_singleton.mp hc with rfl
  exact getD_mem_of_lt _ _ _ (by exact hlt)

/-- The object symbols of `getSymbolWithLength` stay inside `a`–`z`. -/
theorem getSymbolWithLength_object_lower (v : String) (n : ℕ) :
    ∀ c ∈ getSymbolWithLength "object" v n,
      97 ≤ charCode c ∧ charCode c ≤ 122 := by
  intro c hc
  unfold getSymbolWithLength at hc
  rw [if_pos rfl] at hc
  have hc' := List.take_subset _ _ hc
  rcases List.mem_cons.mp hc' with rfl | hmem
  · exact objectVocab_lower _ (getSymbol_mem "object" v _ (by decide) (by decide))
  · rcases List.mem_map.mp hmem with ⟨i, _, rfl⟩
    exact objectVocab_lower _ (getD_mem_of_lt _ _ _ (Nat.mod_lt _ (by decide)))

/-- The greedy object fill stays within budget and emits only lowercase
letters. -/
theorem encodeObjectsLoop_spec {K : Type} [LinearOrderedField K] [FloorRing K]
    (imgW imgH : K) (budget : ℕ) :
    ∀ (shapes : List (CulShape K)) (cur : ℕ), cur ≤ budget →
      cur + (encodeObjectsLoop imgW imgH budget shapes cur).length ≤ budget ∧
      ∀ c ∈ encodeObjectsLoop imgW imgH budget shapes cur,
        97 ≤ charCode c ∧ charCode c ≤ 122 := by
  intro shapes
  induction shapes with
  | nil =>
      intro cur h
      rw [encodeObjectsLoop]
      exact ⟨by simpa using h, by simp⟩
  | cons s rest ih =>
      intro cur h
      rw [encodeObjectsLoop]
      by_cases h1 : cur < budget
      · rw [if_pos h1]
        by_cases h2 : budget <
            cur + symbolLengthFor (s.culturalWeight * s.saliency) + 1
        · rw [if_pos h2]
          exact ⟨by simpa using h, by simp⟩
        · rw [if_neg h2]
          have hsl : 1 ≤ symbolLengthFor (s.culturalWeight * s.saliency) := by
            unfold symbolLengthFor
            split_ifs <;> omega
          have hlen1 := getSymbolWithLength_length "object" (jsString s.type) _ hsl
          have hlen2 :=
            encodePosition_one_length imgW imgH s.centroid (some s.boundingBox)
          have hcur' : cur +
              (getSymbolWithLength "object" (jsString s.type)
                (symbolLengthFor (s.culturalWeight * s.saliency))).length +
              (encodePosition imgW imgH s.centroid (some s.boundingBox) 1).length ≤
              budget := by
            rw [hlen1, hlen2]
            omega
          obtain ⟨iha, ihb⟩ := ih _ hcur'
          refine ⟨?_, ?_⟩
          · simp only [List.length_append]
            omega
          · intro c hc
            rcases List.mem_append.mp hc with hc' | hc'
            · rcases List.mem_append.mp hc' with hc'' | hc''
              · exact getSymbolWithLength_object_lower _ _ _ hc''
              · exact posChars_lower _
                  (encodePosition_one_mem _ _ _ _ _ hc'')
            · exact ihb _ hc'
      · rw [if_neg h1]
        exact ⟨by simpa using h, by simp⟩

/-- The object segment has exactly its budget length and only `a`–`z` or the
`'0'` filler. -/
theorem encodeObjectsWithEntropy_spec {K : Type} [LinearOrderedField K]
    [FloorRing K] (imgW imgH : K) (shapes : List (CulShape K)) (budget : ℕ) :
    (encodeObjectsWithEntropy imgW imgH shapes budget).length = budget ∧
    ∀ c ∈ encodeObjectsWithEntropy imgW imgH shapes budget,
      (97 ≤ charCode c ∧ charCode c ≤ 122) ∨ c = '0' := by
  unfold encodeObjectsWithEntropy
  by_cases hempty : shapes.length = 0
  · rw [if_pos hempty]
    refine ⟨List.length_replicate _ _, ?_⟩
    intro c hc
    exact Or.inr (List.eq_of_mem_replicate hc)
  · rw [if_neg hempty]
    obtain ⟨ha, hb⟩ := encodeObjectsLoop_spec imgW imgH budget shapes 0 (by omega)
    refine ⟨?_, ?_⟩
    · rw [padEnd_length]
      omega
    · intro c hc
      unfold padEnd at hc
      rcases List.mem_append.mp hc with hc' | hc'
      · exact Or.inl (hb _ hc')
      · exact Or.inr (List.eq_of_mem_replicate hc')

/-- The truncation step never exceeds the requested length. -/
theorem truncateTo_le (l : List Char) (n : ℕ) : (truncateTo l n).length ≤ n := by
  unfold truncateTo
  split_ifs with h
  · simp only [List.length_take]
    omega
  · omega

/-- The truncation step keeps only original characters. -/
theorem truncateTo_subset (l : List Char) (n : ℕ) :
    ∀ c ∈ truncateTo l n, c ∈ l := by
  unfold truncateTo
  split_ifs with h
  · exact fun c hc => List.take_subset _ _ hc
  · exact fun c hc => hc

/-- Depth-layer symbols stay inside the spatial segment's reserved
alphabet. -/
theorem encodeDepthLayers_mem {K : Type} [LinearOrderedField K] [FloorRing K]
    (dmo : Option (DepthMap K)) (avail : ℕ) :
    ∀ c ∈ encodeDepthLayers dmo avail, spatialCharOk c = true := by
  cases dmo with
  | none =>
      intro c hc
      simp [encodeDepthLayers] at hc
  | some dm =>
      intro c hc
      simp only [encodeDepthLayers] at hc
      by_cases hz : avail = 0
      · rw [if_pos hz] at hc
        simp at hc
      · rw [if_neg hz] at hc
        have aux : ∀ (P : Prop) (inst : Decidable P) (x : Char),
            c ∈ (if P then [x] else []) → c = x := by
          intro P inst x hx
          split_ifs at hx
          · exact List.mem_singleton.mp hx
          · simp at hx
        rcases List.mem_append.mp hc with h5 | h5
        · rcases aux _ _ _ h5 with rfl
          exact depthVocab_spatial _
            (getSymbol_mem "depth" _ _ (by decide) (by decide))
        · rcases aux _ _ _ h5 with rfl
          simp only [spatialCharOk, Bool.or_eq_true, Bool.and_eq_true,
            decide_eq_true_eq]
          right
          exact quantizeToSymbol_code _

/-- The spatial segment has exactly its budget length and stays inside its
reserved alphabet. -/
theorem encodeSpatialWithDepth_spec {K : Type} [LinearOrderedField K]
    [FloorRing K] (spatial : Spatial K) (budget : ℕ) :
    (encodeSpatialWithDepth spatial budget).length = budget ∧
    ∀ c ∈ encodeSpatialWithDepth spatial budget, spatialCharOk c = true := by
  unfold encodeSpatialWithDepth
  have hlenle := truncateTo_le
    ([getSymbol "focus" spatial.primaryFocus,
      getSymbol "distribution" spatial.pattern] ++
      (if 2 < budget then encodeDepthLayers spatial.depthMap (budget - 2) else []))
    budget
  refine ⟨by rw [padEnd_length]; omega, ?_⟩
  intro c hc
  unfold padEnd at hc
  rcases List.mem_append.mp hc with hc' | hc'
  · have hc'' := truncateTo_subset _ _ _ hc'
    rcases List.mem_append.mp hc'' with hc3 | hc3
    · rcases List.mem_cons.mp hc3 with rfl | hc4
      · exact wxyzVocab_spatial _ (getSymbol_mem "focus" _ _ (by decide) (by decide))
      · rcases List.mem_singleton.mp (by simpa using hc4) with rfl
        exact distVocab_spatial _
          (getSymbol_mem "distribution" _ _ (by decide) (by decide))
    · by_cases hb : 2 < budget
      · rw [if_pos hb] at hc3
        exact encodeDepthLayers_mem _ _ _ hc3
      · rw [if_neg hb] at hc3
        simp at hc3
  · rcases List.eq_of_mem_replicate hc' with rfl
    decide

/-- Membership in a three-element list. -/
theorem mem_triple {c a b d : Char} (h : c ∈ [a, b, d]) :
    c = a ∨ c = b ∨ c = d := by simpa using h

/-- The scene segment: three symbols, or four with a complexity mark, all
inside Σ. -/
theorem encodeSceneContext_spec {K : Type} [LinearOrderedField K] [FloorRing K]
    (p : CulturalPerception K) (emotion : Emotion K) (budget : ℕ) :
    (encodeSceneContext p emotion budget).length = (if 3 < budget then 4 else 3) ∧
    ∀ c ∈ encodeSceneContext p emotion budget, svCharOk c = true := by
  have hmem : ∀ c ∈ [getSymbol "scene" (classifySceneType p),
      getSymbol "light" (classifyLighting p.colors),
      getSymbol "mood" (dominantMood emotion)], svCharOk c = true := by
    intro c hc
    rcases mem_triple hc with rfl | rfl | rfl
    · exact sceneVocab_sv _ (getSymbol_mem "scene" _ _ (by decide) (by decide))
    · exact lightVocab_sv _ (getSymbol_mem "light" _ _ (by decide) (by decide))
    · exact moodVocab_sv _ (getSymbol_mem "mood" _ _ (by decide) (by decide))
  unfold encodeSceneContext
  split_ifs with h
  · refine ⟨by simp, ?_⟩
    intro c hc
    rcases List.mem_append.mp hc with hc' | hc'
    · exact hmem _ hc'
    · rcases List.mem_singleton.mp hc' with rfl
      exact complexityVocab_sv _
        (getSymbol_mem "complexity" _ _ (by decide) (by decide))
  · exact ⟨by simp, hmem⟩

/-- The emotion segment has exactly its budget length (the budgets table gives
it at least 2) and stays inside Σ. -/
theorem encodeEmotionalTrajectory_spec {K : Type} [LinearOrderedField K]
    [FloorRing K] (emotion : Emotion K) (budget : ℕ) (hb : 2 ≤ budget) :
    (encodeEmotionalTrajectory emotion budget).length = budget ∧
    ∀ c ∈ encodeEmotionalTrajectory emotion budget, svCharOk c = true := by
  unfold encodeEmotionalTrajectory
  constructor
  · rw [padEnd_length]
    simp only [List.length_append, List.length_cons, List.length_nil]
    split_ifs <;> simp <;> omega
  · intro c hc
    unfold padEnd at hc
    have aux : ∀ (P : Prop) (inst : Decidable P) (x : Char),
        c ∈ (if P then [x] else []) → c = x := by
      intro P inst x hx
      split_ifs at hx
      · exact List.mem_singleton.mp hx
      · simp at hx
    rcases List.mem_append.mp hc with hc' | hc'
    · rcases List.mem_append.mp hc' with hc2 | hc2
      · rcases List.mem_append.mp hc2 with hc3 | hc3
        · have : c = quantizeToSymbol emotion.current.valence ∨
              c = quantizeToSymbol emotion.current.arousal := by simpa using hc3
          rcases this with rfl | rfl <;>
            exact svCharOk_of_range _ (Or.inl (quantizeToSymbol_code _))
        · rcases aux _ _ _ hc3 with rfl
          exact trendVocab_sv _ (getSymbol_mem "trend" _ _ (by decide) (by decide))
      · rcases aux _ _ _ hc2 with rfl
        exact svCharOk_of_range _ (Or.inl (quantizeToSymbol_code _))
    · rcases List.eq_of_mem_replicate hc' with rfl
      decide

/-- With a known mode, `encodeToSymbols` always passes its defensive segment
validation and returns the joined four-segment code. -/
theorem encodeToSymbols_ok {K : Type} [LinearOrderedField K] [FloorRing K]
    (mode : String) (b : Budget) (hb : budgets mode = some b) (imgW imgH : K)
    (p : CulturalPerception K) (emotion : Emotion K) :
    encodeToSymbols mode imgW imgH p emotion =
      .ok (encodeSceneContext p emotion b.scene ++
        encodeObjectsWithEntropy imgW imgH p.shapes b.objects ++
        encodeSpatialWithDepth p.spatial b.spatial ++
        encodeEmotionalTrajectory emotion b.emotion) := by
  have hobj : ((encodeObjectsWithEntropy imgW imgH p.shapes b.objects).filter
      (· ≠ '0')).all (fun c => 97 ≤ charCode c && charCode c ≤ 122) = true := by
    rw [List.all_eq_true]
    intro c hc
    rcases List.mem_filter.mp hc with ⟨hmem, hne⟩
    rcases (encodeObjectsWithEntropy_spec imgW imgH p.shapes b.objects).2 _ hmem
      with h | rfl
    · simp only [Bool.and_eq_true, decide_eq_true_eq]
      exact h
    · simp at hne
  have hspa : (encodeSpatialWithDepth p.spatial b.spatial).all spatialCharOk
      = true := by
    rw [List.all_eq_true]
    exact fun c hc => (encodeSpatialWithDepth_spec p.spatial b.spatial).2 c hc
  simp only [encodeToSymbols, hb]
  rw [if_neg (not_not_intro hobj), if_neg (not_not_intro hspa)]

/-- Every character of the checksummed four-segment code is inside Σ. -/
theorem fourSegment_sv {K : Type} [LinearOrderedField K] [FloorRing K]
    (imgW imgH : K) (p : CulturalPerception K) (emotion : Emotion K)
    (b : Budget) (he : 2 ≤ b.emotion) :
    ∀ c ∈ addReedSolomonErrorCorrection
      (encodeSceneContext p emotion b.scene ++
        encodeObjectsWithEntropy imgW imgH p.shapes b.objects ++
        encodeSpatialWithDepth p.spatial b.spatial ++
        encodeEmotionalTrajectory emotion b.emotion), svCharOk c = true := by
  intro c hc
  unfold addReedSolomonErrorCorrection at hc
  rcases List.mem_append.mp hc with hc' | hc'
  · rcases List.mem_append.mp hc' with hc2 | hc2
    · rcases List.mem_append.mp hc2 with hc3 | hc3
      · rcases List.mem_append.mp hc3 with hc4 | hc4
        · exact (encodeSceneContext_spec p emotion b.scene).2 _ hc4
        · rcases (encodeObjectsWithEntropy_spec imgW imgH p.shapes b.objects).2
            _ hc4 with h | rfl
          · exact svCharOk_of_range _ (Or.inr (Or.inl h))
          · decide
      · exact spatialCharOk_svCharOk _
          ((encodeSpatialWithDepth_spec p.spatial b.spatial).2 _ hc3)
    · exact (encodeEmotionalTrajectory_spec emotion b.emotion he).2 _ hc2
  · rcases List.mem_singleton.mp hc' with rfl
    exact svCharOk_of_range _ (Or.inl (parity_code _))

/-- C5 (amended to the source's budget keys): for every mode in
`mobile`/`balanced`/`rich`, `encodeToSymbols` succeeds on every input and the
checksummed code has length `budget.total + 1`, the totals being 16, 26
and 32. -/
theorem encode_code_length {K : Type} [LinearOrderedField K] [FloorRing K]
    (mode : String)
    (hmode : mode = "mobile" ∨ mode = "balanced" ∨ mode = "rich")
    (imgW imgH : K) (p : CulturalPerception K) (emotion : Emotion K) :
    ∃ b code, budgets mode = some b ∧
      encodeToSymbols mode imgW imgH p emotion = Except.ok code ∧
      (addReedSolomonErrorCorrection code).length = b.total + 1 ∧
      ((mode = "mobile" ∧ b.total = 16) ∨ (mode = "balanced" ∧ b.total = 26) ∨
        (mode = "rich" ∧ b.total = 32)) := by
  have core : ∀ b : Budget, budgets mode = some b → 2 ≤ b.emotion →
      ∃ code, encodeToSymbols mode imgW imgH p emotion = Except.ok code ∧
        (addReedSolomonErrorCorrection code).length =
          (if 3 < b.scene then 4 else 3) + b.objects + b.spatial + b.emotion + 1 := by
    intro b hb he
    refine ⟨_, encodeToSymbols_ok mode b hb imgW imgH p emotion, ?_⟩
    unfold addReedSolomonErrorCorrection
    simp only [List.length_append, List.length_singleton,
      (encodeSceneContext_spec p emotion b.scene).1,
      (encodeObjectsWithEntropy_spec imgW imgH p.shapes b.objects).1,
      (encodeSpatialWithDepth_spec p.spatial b.spatial).1,
      (encodeEmotionalTrajectory_spec emotion b.emotion he).1]
  rcases hmode with rfl | rfl | rfl
  · obtain ⟨code, hok, hlen⟩ := core ⟨16, 3, 6, 4, 3⟩ (by decide) (by decide)
    exact ⟨⟨16, 3, 6, 4, 3⟩, code, by decide, hok, by simpa using hlen,
      Or.inl ⟨rfl, rfl⟩⟩
  · obtain ⟨code, hok, hlen⟩ := core ⟨26, 4, 12, 6, 4⟩ (by decide) (by decide)
    exact ⟨⟨26, 4, 12, 6, 4⟩, code, by decide, hok, by simpa using hlen,
      Or.inr (Or.inl ⟨rfl, rfl⟩)⟩
  · obtain ⟨code, hok, hlen⟩ := core ⟨32, 4, 14, 8, 6⟩ (by decide) (by decide)
    exact ⟨⟨32, 4, 14, 8, 6⟩, code, by decide, hok, by simpa using hlen,
      Or.inr (Or.inr ⟨rfl, rfl⟩)⟩

/-- Witness for `encode_code_length` in balanced mode on the concrete sample
input. -/
theorem encode_code_length_witness :
    ("balanced" = "mobile" ∨ "balanced" = "balanced" ∨ "balanced" = "rich") ∧
    (∃ b code, budgets "balanced" = some b ∧
      encodeToSymbols "balanced" (16 : ℚ) 16 samplePerceptionQ sampleEmotionQ =
        Except.ok code ∧
      (addReedSolomonErrorCorrection code).length = b.total + 1 ∧
      (("balanced" = "mobile" ∧ b.total = 16) ∨
        ("balanced" = "balanced" ∧ b.total = 26) ∨
        ("balanced" = "rich" ∧ b.total = 32))) :=
  ⟨Or.inr (Or.inl rfl),
    encode_code_length "balanced" (Or.inr (Or.inl rfl)) 16 16
      samplePerceptionQ sampleEmotionQ⟩

/-- C5 counterexample: the budget table has no `compact` key, so encoding in
mode `compact` faults on the `budget.scene` access instead of returning a
17-character code. -/
theorem compact_mode_has_no_budget :
    budgets "compact" = none ∧
    encodeToSymbols "compact" (16 : ℚ) 16 samplePerceptionQ sampleEmotionQ =
      Except.error "TypeError: cannot read properties of undefined" := by
  constructor
  · decide
  · simp [encodeToSymbols, budgets]

/-- C6: in every supported mode the allocator's object segment stays inside
`{a–z, '0'}`, the spatial segment inside its reserved alphabet
`{W,X,Y,Z,0–4,!,@,#,$,%,A–Z}`, the full checksummed code inside Σ, and the
defensive validation therefore returns the code instead of throwing. -/
theorem encode_segment_alphabets {K : Type} [LinearOrderedField K] [FloorRing K]
    (mode : String)
    (hmode : mode = "mobile" ∨ mode = "balanced" ∨ mode = "rich")
    (imgW imgH : K) (p : CulturalPerception K) (emotion : Emotion K) :
    ∃ b code, budgets mode = some b ∧
      encodeToSymbols mode imgW imgH p emotion = Except.ok code ∧
      (∀ c ∈ encodeObjectsWithEntropy imgW imgH p.shapes b.objects,
        (97 ≤ charCode c ∧ charCode c ≤ 122) ∨ c = '0') ∧
      (∀ c ∈ encodeSpatialWithDepth p.spatial b.spatial,
        spatialCharOk c = true) ∧
      (∀ c ∈ addReedSolomonErrorCorrection code, svCharOk c = true) := by
  have core : ∀ b : Budget, budgets mode = some b → 2 ≤ b.emotion →
      ∃ code, encodeToSymbols mode imgW imgH p emotion = Except.ok code ∧
        (∀ c ∈ encodeObjectsWithEntropy imgW imgH p.shapes b.objects,
          (97 ≤ charCode c ∧ charCode c ≤ 122) ∨ c = '0') ∧
        (∀ c ∈ encodeSpatialWithDepth p.spatial b.spatial,
          spatialCharOk c = true) ∧
        (∀ c ∈ addReedSolomonErrorCorrection code, svCharOk c = true) := by
    intro b hb he
    exact ⟨_, encodeToSymbols_ok mode b hb imgW imgH p emotion,
      (encodeObjectsWithEntropy_spec imgW imgH p.shapes b.objects).2,
      (encodeSpatialWithDepth_spec p.spatial b.spatial).2,
      fourSegment_sv imgW imgH p emotion b he⟩
  rcases hmode with rfl | rfl | rfl
  · obtain ⟨code, h1, h2, h3, h4⟩ := core ⟨16, 3, 6, 4, 3⟩ (by decide) (by decide)
    exact ⟨⟨16, 3, 6, 4, 3⟩, code, by decide, h1, h2, h3, h4⟩
  · obtain ⟨code, h1, h2, h3, h4⟩ := core ⟨26, 4, 12, 6, 4⟩ (by decide) (by decide)
    exact ⟨⟨26, 4, 12, 6, 4⟩, code, by decide, h1, h2, h3, h4⟩
  · obtain ⟨code, h1, h2, h3, h4⟩ := core ⟨32, 4, 14, 8, 6⟩ (by decide) (by decide)
    exact ⟨⟨32, 4, 14, 8, 6⟩, code, by decide, h1, h2, h3, h4⟩

/-- Witness for `encode_segment_alphabets` in mobile mode on the concrete
sample input. -/
theorem encode_segment_alphabets_witness :
    ("mobile" = "mobile" ∨ "mobile" = "balanced" ∨ "mobile" = "rich") ∧
    (∃ b code, budgets "mobile" = some b ∧
      encodeToSymbols "mobile" (16 : ℚ) 16 samplePerceptionQ sampleEmotionQ =
        Except.ok code ∧
      (∀ c ∈ encodeObjectsWithEntropy (16 : ℚ) 16 samplePerceptionQ.shapes
          b.objects, (97 ≤ charCode c ∧ charCode c ≤ 122) ∨ c = '0') ∧
      (∀ c ∈ encodeSpatialWithDepth samplePerceptionQ.spatial b.spatial,
        spatialCharOk c = true) ∧
      (∀ c ∈ addReedSolomonErrorCorrection code, svCharOk c = true)) :=
  ⟨Or.inl rfl,
    encode_segment_alphabets "mobile" (Or.inl rfl) 16 16
      samplePerceptionQ sampleEmotionQ⟩

/-- C8: the encoder's 3×3 position tag for the centroid `(1,1)` of a 16×16
image is `'a'` (grid cell `(0,0)`), but the decoder's `decodePosition` grid
table is the digits `123456789`, so the letter misses it and the decoder
falls back to the centre of frame `(1/2, 1/2)` — which lies in grid cell
`(1,1)`, not in the centroid's cell. -/
theorem position_tag_not_inverted :
    encodePosition (16 : ℚ) 16 (1, 1) none 1 = ['a'] ∧
    (decodePosition ['a'] : ℚ × ℚ) = (1/2, 1/2) ∧
    ⌊((1 : ℚ)/16) * 3⌋ = 0 ∧ ⌊((1 : ℚ)/2) * 3⌋ = 1 := by
  have hfloor : ⌊((1 : ℚ)/16) * 3⌋ = 0 := by
    rw [Int.floor_eq_zero_iff]
    constructor <;> norm_num
  have hfloor2 : ⌊((1 : ℚ)/2) * 3⌋ = 1 := by
    rw [Int.floor_eq_iff]
    norm_num
  refine ⟨?_, ?_, hfloor, hfloor2⟩
  · unfold encodePosition
    rw [if_pos rfl]
    show ["abcdefghi".toList.getD
      (max 0 (min 8 (⌊((1 : ℚ)/16) * 3⌋ * 3 + ⌊((1 : ℚ)/16) * 3⌋))).toNat '?'] = ['a']
    rw [hfloor]
    decide
  · simp [decodePosition]

/-- The third element survives a `take` of at least three. -/
theorem mem_take_third {α : Type} (a b x : α) (t : List α) (n : ℕ) (h : 3 ≤ n) :
    x ∈ (a :: b :: x :: t).take n := by
  obtain ⟨m, rfl⟩ : ∃ m, n = m + 3 := ⟨n - 3, by omega⟩
  simp [List.take_succ_cons]

/-- `dropWhile` is the identity when no character satisfies the predicate. -/
theorem dropWhile_eq_self_of_none (p : Char → Bool) (l : List Char)
    (h : ∀ c ∈ l, p c = false) : l.dropWhile p = l := by
  cases l with
  | nil => rfl
  | cons a t =>
      rw [List.dropWhile_cons, if_neg (by simp [h a (List.mem_cons_self a t)])]

/-- Trimming does nothing to a string drawn from Σ. -/
theorem jsTrim_eq_self (l : List Char) (h : ∀ c ∈ l, svCharOk c = true) :
    jsTrim l = l := by
  unfold jsTrim
  rw [dropWhile_eq_self_of_none _ _ (fun c hc => svCharOk_not_ws c (h c hc)),
    dropWhile_eq_self_of_none _ _
      (fun c hc => svCharOk_not_ws c (h c (by simpa using hc))),
    List.reverse_reverse]

/-- No depth symbol is in the decoder's `[A-Za-z0-9αβγδ]` class. -/
theorem depthVocab_not_decoder : ∀ c ∈ "!@#$%".toList,
    decoderFormatCharOk c = false := by decide

/-- When the depth map exists (as the pipeline always produces it), the
spatial segment carries a depth symbol from `!@#$%`. -/
theorem encodeSpatialWithDepth_has_depth_char {K : Type} [LinearOrderedField K]
    [FloorRing K] (spatial : Spatial K) (dm : DepthMap K)
    (hdm : spatial.depthMap = some dm) (budget : ℕ) (hb : 3 ≤ budget) :
    getSymbol "depth" (quantizeDepthToLayers (some dm)).1 ∈
      encodeSpatialWithDepth spatial budget := by
  unfold encodeSpatialWithDepth padEnd
  apply List.mem_append_left
  rw [if_pos (show 2 < budget by omega), hdm]
  have havail : ¬ (budget - 2 = 0) := by omega
  have heq : [getSymbol "focus" spatial.primaryFocus,
      getSymbol "distribution" spatial.pattern] ++
      encodeDepthLayers (some dm) (budget - 2) =
      getSymbol "focus" spatial.primaryFocus ::
        getSymbol "distribution" spatial.pattern ::
        getSymbol "depth" (quantizeDepthToLayers (some dm)).1 ::
        (if 2 ≤ budget - 2 then [quantizeToSymbol (quantizeDepthToLayers (some dm)).2]
          else []) := by
    simp only [encodeDepthLayers, if_neg havail, if_pos (show 1 ≤ budget - 2 by omega)]
    simp
  rw [heq]
  unfold truncateTo
  split_ifs <;> first
    | exact mem_take_third _ _ _ _ _ hb
    | simp

/-- Every encoder output in every supported mode passes the facade's
`SymbolValidator` but fails the decoder's `validateAndCorrect`, whose
character class omits the `!@#$%` depth symbols. -/
theorem encoder_decoder_validation_mismatch {K : Type} [LinearOrderedField K]
    [FloorRing K] (mode : String)
    (hmode : mode = "mobile" ∨ mode = "balanced" ∨ mode = "rich")
    (imgW imgH : K) (p : CulturalPerception K) (emotion : Emotion K)
    (dm : DepthMap K) (hdm : p.spatial.depthMap = some dm) :
    ∃ code, encodeToSymbols mode imgW imgH p emotion = Except.ok code ∧
      svValidate (addReedSolomonErrorCorrection code) = true ∧
      (validateAndCorrect (addReedSolomonErrorCorrection code)).valid = false := by
  have core : ∀ b : Budget, budgets mode = some b → 2 ≤ b.emotion →
      3 ≤ b.spatial → 16 ≤ b.total + 1 → b.total + 1 ≤ 33 →
      (if 3 < b.scene then 4 else 3) + b.objects + b.spatial + b.emotion = b.total →
      ∃ code, encodeToSymbols mode imgW imgH p emotion = Except.ok code ∧
        svValidate (addReedSolomonErrorCorrection code) = true ∧
        (validateAndCorrect (addReedSolomonErrorCorrection code)).valid = false := by
    intro b hb he hs hlo hhi htotal
    set code := encodeSceneContext p emotion b.scene ++
      encodeObjectsWithEntropy imgW imgH p.shapes b.objects ++
      encodeSpatialWithDepth p.spatial b.spatial ++
      encodeEmotionalTrajectory emotion b.emotion with hcode
    have hsv : ∀ c ∈ addReedSolomonErrorCorrection code, svCharOk c = true := by
      rw [hcode]
      exact fourSegment_sv imgW imgH p emotion b he
    have hclen : code.length = b.total := by
      rw [hcode]
      simp only [List.length_append,
        (encodeSceneContext_spec p emotion b.scene).1,
        (encodeObjectsWithEntropy_spec imgW imgH p.shapes b.objects).1,
        (encodeSpatialWithDepth_spec p.spatial b.spatial).1,
        (encodeEmotionalTrajectory_spec emotion b.emotion he).1]
      omega
    have hfull : addReedSolomonErrorCorrection code =
        code ++ [generateReedSolomonParity code] := rfl
    have hfulllen : (addReedSolomonErrorCorrection code).length = b.total + 1 := by
      rw [hfull]
      simp [hclen]
    refine ⟨code, encodeToSymbols_ok mode b hb imgW imgH p emotion, ?_, ?_⟩
    · have hcond1 : ¬ (((addReedSolomonErrorCorrection code).length < 16 ||
          33 < (addReedSolomonErrorCorrection code).length) = true) := by
        rw [hfulllen]
        simp only [Bool.or_eq_true, decide_eq_true_eq]
        omega
      have hcond2 : ¬¬ ((addReedSolomonErrorCorrection code).all svCharOk = true) :=
        not_not_intro (List.all_eq_true.mpr hsv)
      unfold svValidate
      rw [if_neg hcond1, if_neg hcond2, hfull, List.dropLast_concat]
      have hlast : (code ++ [generateReedSolomonParity code]).getLastD ' ' =
          generateReedSolomonParity code := by
        simp [List.getLastD_concat]
      rw [hlast, show generateReedSolomonParity code = calculateChecksum code from rfl]
      exact beq_self_eq_true _
    · have hmem : getSymbol "depth" (quantizeDepthToLayers (some dm)).1 ∈
          addReedSolomonErrorCorrection code := by
        rw [hfull]
        apply List.mem_append_left
        rw [hcode]
        apply List.mem_append_left
        apply List.mem_append_right
        exact encodeSpatialWithDepth_has_depth_char p.spatial dm hdm b.spatial hs
      have hbad : decoderFormatCharOk
          (getSymbol "depth" (quantizeDepthToLayers (some dm)).1) = false :=
        depthVocab_not_decoder _ (getSymbol_mem "depth" _ _ (by decide) (by decide))
      have hcond : ¬ ((addReedSolomonErrorCorrection code).all decoderFormatCharOk ∧
          16 ≤ (addReedSolomonErrorCorrection code).length ∧
          (addReedSolomonErrorCorrection code).length ≤ 33) := by
        rintro ⟨hall, -⟩
        rw [List.all_eq_true] at hall
        have h2 := hall _ hmem
        rw [hbad] at h2
        exact Bool.false_ne_true h2
      simp only [validateAndCorrect, jsTrim_eq_self _ hsv]
      rw [if_pos hcond]
  rcases hmode with rfl | rfl | rfl
  · exact core ⟨16, 3, 6, 4, 3⟩ (by decide) (by decide) (by decide) (by decide)
      (by decide) (by decide)
  · exact core ⟨26, 4, 12, 6, 4⟩ (by decide) (by decide) (by decide) (by decide)
      (by decide) (by decide)
  · exact core ⟨32, 4, 14, 8, 6⟩ (by decide) (by decide) (by decide) (by decide)
      (by decide) (by decide)

/-- C1: the code `ELVγefgaefgaefgaW4$AXXOM6MJ`, produced by the encoder in the
repository's own test-error report, passes the facade's `SymbolValidator`
self-check but is rejected by the decoder's `validateAndCorrect`, whose
character class `[A-Za-z0-9αβγδ]` omits the `!@#$%` depth symbols that every
spatial segment carries. -/
theorem generated_code_rejected_by_decoder :
    svValidate "ELVγefgaefgaefgaW4$AXXOM6MJ".toList = true ∧
    '$' ∈ "ELVγefgaefgaefgaW4$AXXOM6MJ".toList ∧
    validateAndCorrect "ELVγefgaefgaefgaW4$AXXOM6MJ".toList =
      { valid := false, error := some "Invalid character set" } := by decide

/-! ### Real-pipeline evaluation lemmas

Support for the determinism analysis: CIEDE2000 vanishes on equal colors and
is positive whenever the two Lab lightnesses differ, which pins down the
k-means++ trace of the two-pixel image `c4img` under both random streams. -/

/-- The color difference of a color with itself is `0`: every delta in the
CIEDE2000 formula vanishes. -/
theorem ciede2000_self (c : RgbV ℝ) : calculateCIEDE2000 c c = 0 := by
  unfold calculateCIEDE2000
  norm_num [sub_self, Real.sin_zero, Real.sqrt_zero]

/-- The lightness compensation `SL` is at least `1`. -/
theorem sl_ge_one (t s : ℝ) : 1 ≤ 1 + 0.015 * t ^ (2:ℕ) / Real.sqrt s := by
  have h : 0 ≤ 0.015 * t ^ (2:ℕ) / Real.sqrt s := by positivity
  linarith

/-- The rotation term `RT` lies in `[-2, 2]` for nonnegative chroma. -/
theorem rt_bound (c θ : ℝ) (hc : 0 ≤ c) :
    -2 ≤ -2 * Real.sqrt (c ^ (7:ℕ) / (c ^ (7:ℕ) + 25 ^ (7:ℕ))) * Real.sin θ ∧
    -2 * Real.sqrt (c ^ (7:ℕ) / (c ^ (7:ℕ) + 25 ^ (7:ℕ))) * Real.sin θ ≤ 2 := by
  have h7 : (0:ℝ) ≤ c ^ (7:ℕ) := pow_nonneg hc 7
  have hden : (0:ℝ) < c ^ (7:ℕ) + 25 ^ (7:ℕ) := by positivity
  have hA : c ^ (7:ℕ) / (c ^ (7:ℕ) + 25 ^ (7:ℕ)) ≤ 1 := by
    rw [div_le_one hden]
    have : (0:ℝ) < 25 ^ (7:ℕ) := by positivity
    linarith
  have hs0 : 0 ≤ Real.sqrt (c ^ (7:ℕ) / (c ^ (7:ℕ) + 25 ^ (7:ℕ))) := Real.sqrt_nonneg _
  have hs1 : Real.sqrt (c ^ (7:ℕ) / (c ^ (7:ℕ) + 25 ^ (7:ℕ))) ≤ 1 := by
    calc Real.sqrt (c ^ (7:ℕ) / (c ^ (7:ℕ) + 25 ^ (7:ℕ))) ≤ Real.sqrt 1 :=
      Real.sqrt_le_sqrt hA
    _ = 1 := Real.sqrt_one
  have hsin1 : Real.sin θ ≤ 1 := Real.sin_le_one θ
  have hsin2 : -1 ≤ Real.sin θ := Real.neg_one_le_sin θ
  constructor <;>
    nlinarith [mul_nonneg hs0 (by linarith : (0:ℝ) ≤ 1 - Real.sin θ),
      mul_nonneg hs0 (by linarith : (0:ℝ) ≤ 1 + Real.sin θ)]

/-- The final CIEDE2000 square root is positive once the lightness delta is
nonzero: the chroma/hue part plus the cross term is a nonnegative quadratic
form for `|RT| ≤ 2`. -/
theorem deltaE_sqrt_pos (dL SLv SCv SHv dC dH R : ℝ) (hSL : 1 ≤ SLv)
    (hdL : dL ≠ 0) (hR1 : -2 ≤ R) (hR2 : R ≤ 2) :
    0 < Real.sqrt ((dL / (1 * SLv)) ^ (2:ℕ) + (dC / (1 * SCv)) ^ (2:ℕ) +
      (dH / (1 * SHv)) ^ (2:ℕ) + R * (dC / (1 * SCv)) * (dH / (1 * SHv))) := by
  apply Real.sqrt_pos.mpr
  have hx : 0 ≤ (dC / (1 * SCv)) ^ (2:ℕ) + (dH / (1 * SHv)) ^ (2:ℕ) +
      R * (dC / (1 * SCv)) * (dH / (1 * SHv)) := by
    nlinarith [mul_nonneg (by linarith : (0:ℝ) ≤ 2 - R)
        (sq_nonneg (dC / (1 * SCv) - dH / (1 * SHv))),
      mul_nonneg (by linarith : (0:ℝ) ≤ 2 + R)
        (sq_nonneg (dC / (1 * SCv) + dH / (1 * SHv)))]
  have hdl : 0 < (dL / (1 * SLv)) ^ (2:ℕ) := by
    have hne : dL / (1 * SLv) ≠ 0 := div_ne_zero hdL (by linarith)
    exact lt_of_le_of_ne (sq_nonneg _) (Ne.symm (pow_ne_zero 2 hne))
  linarith

/-- Gamma correction fixes `1` (the base collapses to `1` and `1^2.4 = 1`). -/
theorem gammaCorrect_one : gammaCorrect 1 = 1 := by
  unfold gammaCorrect
  rw [if_pos (by norm_num : (1:ℝ) > 0.04045)]
  rw [show ((1:ℝ) + 0.055) / 1.055 = 1 by norm_num]
  exact Real.one_rpow _

/-- Black has Lab lightness exactly `0`. -/
theorem labL_black : (rgbToLab ⟨(0:ℝ), 0, 0⟩).L = 0 := by
  have h0 : gammaCorrect ((0:ℝ) / 255) = 0 := by
    unfold gammaCorrect
    rw [if_neg (by norm_num)]
    norm_num
  simp only [rgbToLab, h0]
  rw [if_neg (by norm_num)]
  norm_num

/-- White has Lab lightness at least `100` (its XYZ luminance is
`1.0000001 ≥ 1`). -/
theorem labL_white_ge : 100 ≤ (rgbToLab ⟨(255:ℝ), 255, 255⟩).L := by
  have h255 : ((255:ℝ) / 255) = 1 := by norm_num
  simp only [rgbToLab, h255, gammaCorrect_one]
  rw [if_pos (by norm_num)]
  rw [show ((1:ℝ) * 0.2126729 + 1 * 0.7151522 + 1 * 0.0721750) / 1 = 1.0000001 by norm_num]
  have h2 : (1:ℝ) ≤ (1.0000001 : ℝ) ^ ((1:ℝ)/3) := by
    calc (1:ℝ) = (1:ℝ) ^ ((1:ℝ)/3) := (Real.one_rpow _).symm
    _ ≤ (1.0000001:ℝ) ^ ((1:ℝ)/3) :=
      Real.rpow_le_rpow (by norm_num) (by norm_num) (by norm_num)
  linarith

/-- Two colors with distinct Lab lightness have positive CIEDE2000 distance. -/
theorem ciede2000_pos_of_L_ne (c1 c2 : RgbV ℝ)
    (h : (rgbToLab c2).L ≠ (rgbToLab c1).L) : 0 < calculateCIEDE2000 c1 c2 := by
  simp only [calculateCIEDE2000]
  apply deltaE_sqrt_pos
  · exact sl_ge_one _ _
  · exact sub_ne_zero_of_ne h
  · exact (rt_bound _ _ (by positivity)).1
  · exact (rt_bound _ _ (by positivity)).2

/-- White and black are a positive CIEDE2000 distance apart. -/
theorem c4dWB_pos : 0 < calculateCIEDE2000 ⟨255, 255, 255⟩ ⟨0, 0, 0⟩ := by
  apply ciede2000_pos_of_L_ne
  rw [labL_black]
  intro h0
  have h1 := labL_white_ge
  rw [← h0] at h1
  norm_num at h1

/-- Black and white are a positive CIEDE2000 distance apart. -/
theorem c4dBW_pos : 0 < calculateCIEDE2000 ⟨0, 0, 0⟩ ⟨255, 255, 255⟩ := by
  apply ciede2000_pos_of_L_ne
  rw [labL_black]
  intro h0
  have h1 := labL_white_ge
  rw [h0] at h1
  norm_num at h1

/-- The two-pixel image samples to white then black (in scan order). -/
theorem c4samplesN : colorSamplesN c4data 16 16 4 = [(255, 255, 255), (0, 0, 0)] := by
  decide

/-- Seeding distance of the white sample to the white center. -/
theorem kpp_W_W : kppMinDistSq [⟨⟨255,255,255⟩, [], 0⟩] ⟨255,255,255⟩ = 0 := by
  simp [kppMinDistSq, jsMinList, ciede2000_self]

/-- Seeding distance of the black sample to the white center. -/
theorem kpp_B_W : kppMinDistSq [⟨⟨255,255,255⟩, [], 0⟩] ⟨0,0,0⟩ =
    calculateCIEDE2000 ⟨0,0,0⟩ ⟨255,255,255⟩ * calculateCIEDE2000 ⟨0,0,0⟩ ⟨255,255,255⟩ := by
  simp [kppMinDistSq, jsMinList]

/-- Seeding distance of the white sample to the black center. -/
theorem kpp_W_B : kppMinDistSq [⟨⟨0,0,0⟩, [], 0⟩] ⟨255,255,255⟩ =
    calculateCIEDE2000 ⟨255,255,255⟩ ⟨0,0,0⟩ * calculateCIEDE2000 ⟨255,255,255⟩ ⟨0,0,0⟩ := by
  simp [kppMinDistSq, jsMinList]

/-- Seeding distance of the black sample to the black center. -/
theorem kpp_B_B : kppMinDistSq [⟨⟨0,0,0⟩, [], 0⟩] ⟨0,0,0⟩ = 0 := by
  simp [kppMinDistSq, jsMinList, ciede2000_self]

/-- The seeding loop stops as soon as enough centers exist. -/
theorem seedLoop_stop (rand : ℕ → ℝ) (samples : List (RgbV ℝ)) (fuel drawIdx : ℕ)
    (clusters : List (Cluster ℝ)) (h : ¬ clusters.length < min 8 samples.length) :
    seedLoop rand samples fuel drawIdx clusters = clusters := by
  cases fuel with
  | zero => rfl
  | succ n =>
      simp only [seedLoop]
      rw [if_neg h]

/-- One seeding iteration pushes the sample picked by the roulette walk. -/
theorem seedLoop_step (rand : ℕ → ℝ) (samples : List (RgbV ℝ)) (fuel drawIdx : ℕ)
    (clusters : List (Cluster ℝ)) (i : ℕ)
    (hlt : clusters.length < min 8 samples.length)
    (hpick : pickIndex (samples.map (kppMinDistSq clusters))
      (rand drawIdx * (samples.map (kppMinDistSq clusters)).foldl (· + ·) 0) = some i) :
    seedLoop rand samples (fuel + 1) drawIdx clusters =
      seedLoop rand samples fuel (drawIdx + 1)
        (clusters ++ [⟨samples.getD i ⟨0, 0, 0⟩, [], 0⟩]) := by
  simp only [seedLoop]
  rw [if_pos hlt, hpick]

/-- A two-entry roulette whose first weight is consumed strictly early picks
the second index. -/
theorem pick_two_second (a r : ℝ) (h1 : 0 < r) (h2 : r ≤ a) :
    pickIndex [0, a] r = some 1 := by
  simp only [pickIndex]
  rw [if_neg (by linarith), if_pos (by linarith)]
  rfl

/-- A roulette whose first weight suffices picks the first index. -/
theorem pick_two_first (a b r : ℝ) (h : r - a ≤ 0) :
    pickIndex [a, b] r = some 0 := by
  simp only [pickIndex]
  rw [if_pos h]

/-- Seeding trace of the first run: draw `1/2` picks the black sample as the
second center. -/
theorem c4seed1 :
    seedLoop c4rand1 [⟨255,255,255⟩, ⟨0,0,0⟩] 8 1 [⟨⟨255,255,255⟩, [], 0⟩] =
      [⟨⟨255,255,255⟩, [], 0⟩, ⟨⟨0,0,0⟩, [], 0⟩] := by
  have hD := c4dBW_pos
  have hpick : pickIndex
      (List.map (kppMinDistSq [⟨⟨255,255,255⟩, [], 0⟩]) [⟨255,255,255⟩, ⟨0,0,0⟩])
      (c4rand1 1 *
        (List.map (kppMinDistSq [⟨⟨255,255,255⟩, [], 0⟩]) [⟨255,255,255⟩, ⟨0,0,0⟩]).foldl
          (· + ·) 0) = some 1 := by
    rw [show List.map (kppMinDistSq [⟨⟨255,255,255⟩, [], 0⟩])
        [(⟨255,255,255⟩ : RgbV ℝ), ⟨0,0,0⟩] =
      [kppMinDistSq [⟨⟨255,255,255⟩, [], 0⟩] ⟨255,255,255⟩,
       kppMinDistSq [⟨⟨255,255,255⟩, [], 0⟩] ⟨0,0,0⟩] from rfl]
    rw [kpp_W_W, kpp_B_W]
    rw [show c4rand1 1 = 1/2 from by norm_num [c4rand1]]
    simp only [List.foldl]
    apply pick_two_second
    · nlinarith [mul_pos hD hD]
    · nlinarith [mul_pos hD hD]
  rw [show (8:ℕ) = 7 + 1 from rfl,
    seedLoop_step c4rand1 _ 7 1 _ 1 (by decide) hpick]
  rw [show ([⟨⟨255,255,255⟩, [], 0⟩] ++
      [⟨[(⟨255,255,255⟩ : RgbV ℝ), ⟨0,0,0⟩].getD 1 ⟨0, 0, 0⟩, [], 0⟩] :
      List (Cluster ℝ)) = [⟨⟨255,255,255⟩, [], 0⟩, ⟨⟨0,0,0⟩, [], 0⟩] from rfl]
  exact seedLoop_stop _ _ _ _ _ (by decide)

/-- Seeding trace of the second run: draw `1/2` picks the white sample as the
second center. -/
theorem c4seed2 :
    seedLoop c4rand2 [⟨255,255,255⟩, ⟨0,0,0⟩] 8 1 [⟨⟨0,0,0⟩, [], 0⟩] =
      [⟨⟨0,0,0⟩, [], 0⟩, ⟨⟨255,255,255⟩, [], 0⟩] := by
  have hD := c4dWB_pos
  have hpick : pickIndex
      (List.map (kppMinDistSq [⟨⟨0,0,0⟩, [], 0⟩]) [⟨255,255,255⟩, ⟨0,0,0⟩])
      (c4rand2 1 *
        (List.map (kppMinDistSq [⟨⟨0,0,0⟩, [], 0⟩]) [⟨255,255,255⟩, ⟨0,0,0⟩]).foldl
          (· + ·) 0) = some 0 := by
    rw [show List.map (kppMinDistSq [⟨⟨0,0,0⟩, [], 0⟩])
        [(⟨255,255,255⟩ : RgbV ℝ), ⟨0,0,0⟩] =
      [kppMinDistSq [⟨⟨0,0,0⟩, [], 0⟩] ⟨255,255,255⟩,
       kppMinDistSq [⟨⟨0,0,0⟩, [], 0⟩] ⟨0,0,0⟩] from rfl]
    rw [kpp_W_B, kpp_B_B]
    rw [show c4rand2 1 = 1/2 from rfl]
    simp only [List.foldl]
    apply pick_two_first
    nlinarith [mul_pos hD hD]
  rw [show (8:ℕ) = 7 + 1 from rfl,
    seedLoop_step c4rand2 _ 7 1 _ 0 (by decide) hpick]
  rw [show ([⟨⟨0,0,0⟩, [], 0⟩] ++
      [⟨[(⟨255,255,255⟩ : RgbV ℝ), ⟨0,0,0⟩].getD 0 ⟨0, 0, 0⟩, [], 0⟩] :
      List (Cluster ℝ)) = [⟨⟨0,0,0⟩, [], 0⟩, ⟨⟨255,255,255⟩, [], 0⟩] from rfl]
  exact seedLoop_stop _ _ _ _ _ (by decide)

/-- A singleton cluster's mean is its only sample. -/
theorem meanCenter_single (s : RgbV ℝ) : meanCenter [s] = s := by
  obtain ⟨r, g, b⟩ := s
  simp [meanCenter]

/-- Nearest-cluster assignment, first run: white goes to cluster 0. -/
theorem c4near1W :
    nearestClusterIdx [⟨⟨255,255,255⟩,[],0⟩, ⟨⟨0,0,0⟩,[],0⟩] ⟨255,255,255⟩ = some 0 := by
  simp only [nearestClusterIdx, List.foldl, ciede2000_self]
  rw [if_neg (not_lt.mpr (le_of_lt c4dWB_pos))]
  rfl

/-- Nearest-cluster assignment, first run: black goes to cluster 1. -/
theorem c4near1B :
    nearestClusterIdx [⟨⟨255,255,255⟩,[],0⟩, ⟨⟨0,0,0⟩,[],0⟩] ⟨0,0,0⟩ = some 1 := by
  simp only [nearestClusterIdx, List.foldl, ciede2000_self]
  rw [if_pos c4dBW_pos]
  rfl

/-- Nearest-cluster assignment, second run: white goes to cluster 1. -/
theorem c4near2W :
    nearestClusterIdx [⟨⟨0,0,0⟩,[],0⟩, ⟨⟨255,255,255⟩,[],0⟩] ⟨255,255,255⟩ = some 1 := by
  simp only [nearestClusterIdx, List.foldl, ciede2000_self]
  rw [if_pos c4dWB_pos]
  rfl

/-- Nearest-cluster assignment, second run: black goes to cluster 0. -/
theorem c4near2B :
    nearestClusterIdx [⟨⟨0,0,0⟩,[],0⟩, ⟨⟨255,255,255⟩,[],0⟩] ⟨0,0,0⟩ = some 0 := by
  simp only [nearestClusterIdx, List.foldl, ciede2000_self]
  rw [if_neg (not_lt.mpr (le_of_lt c4dBW_pos))]
  rfl

/-- First k-means iteration of the first run: each pixel is its own cluster,
no center moves, weights become `1/2`. -/
theorem c4kstep1 :
    kmeansStep [⟨255,255,255⟩, ⟨0,0,0⟩] [⟨⟨255,255,255⟩,[],0⟩, ⟨⟨0,0,0⟩,[],0⟩] =
      ([⟨⟨255,255,255⟩, [⟨255,255,255⟩], 1/2⟩, ⟨⟨0,0,0⟩, [⟨0,0,0⟩], 1/2⟩], false) := by
  norm_num [kmeansStep, show List.range 2 = [0, 1] from rfl, c4near1W, c4near1B,
    meanCenter_single, ciede2000_self, List.filter]

/-- First k-means iteration of the second run (clusters in swapped order). -/
theorem c4kstep2 :
    kmeansStep [⟨255,255,255⟩, ⟨0,0,0⟩] [⟨⟨0,0,0⟩,[],0⟩, ⟨⟨255,255,255⟩,[],0⟩] =
      ([⟨⟨0,0,0⟩, [⟨0,0,0⟩], 1/2⟩, ⟨⟨255,255,255⟩, [⟨255,255,255⟩], 1/2⟩], false) := by
  norm_num [kmeansStep, show List.range 2 = [0, 1] from rfl, c4near2W, c4near2B,
    meanCenter_single, ciede2000_self, List.filter]

/-- The k-means loop exits after an iteration that moved nothing. -/
theorem kmeansLoop_stop (samples : List (RgbV ℝ)) (fuel : ℕ)
    (clusters : List (Cluster ℝ)) (h : (kmeansStep samples clusters).2 = false) :
    kmeansLoop samples (fuel + 1) clusters = (kmeansStep samples clusters).1 := by
  simp only [kmeansLoop]
  rw [h]
  simp

/-- Full clustering of the two samples under the first stream: white cluster
first. -/
theorem c4cluster1 :
    clusterColorsCIEDE2000 c4rand1 [⟨255,255,255⟩, ⟨0,0,0⟩] =
      [⟨⟨255,255,255⟩, [⟨255,255,255⟩], 1/2⟩, ⟨⟨0,0,0⟩, [⟨0,0,0⟩], 1/2⟩] := by
  simp only [clusterColorsCIEDE2000]
  rw [if_neg (by decide : ¬ List.length [(⟨255,255,255⟩ : RgbV ℝ), ⟨0,0,0⟩] = 0)]
  have hidx : (⌊c4rand1 0 *
      ((List.length [(⟨255,255,255⟩ : RgbV ℝ), ⟨0,0,0⟩] : ℕ) : ℝ)⌋).toNat = 0 := by
    norm_num [c4rand1]
  rw [hidx]
  rw [show ([(⟨255,255,255⟩ : RgbV ℝ), ⟨0,0,0⟩].getD 0 ⟨0, 0, 0⟩) = ⟨255,255,255⟩ from rfl]
  rw [c4seed1]
  rw [show (50:ℕ) = 49 + 1 from rfl,
    kmeansLoop_stop _ _ _ (by rw [c4kstep1]), c4kstep1]
  norm_num [jsSortWeightDesc, List.foldl, stableInsertWeightDesc, List.filter]

/-- Full clustering of the two samples under the second stream: black cluster
first. -/
theorem c4cluster2 :
    clusterColorsCIEDE2000 c4rand2 [⟨255,255,255⟩, ⟨0,0,0⟩] =
      [⟨⟨0,0,0⟩, [⟨0,0,0⟩], 1/2⟩, ⟨⟨255,255,255⟩, [⟨255,255,255⟩], 1/2⟩] := by
  simp only [clusterColorsCIEDE2000]
  rw [if_neg (by decide : ¬ List.length [(⟨255,255,255⟩ : RgbV ℝ), ⟨0,0,0⟩] = 0)]
  have hidx : (⌊c4rand2 0 *
      ((List.length [(⟨255,255,255⟩ : RgbV ℝ), ⟨0,0,0⟩] : ℕ) : ℝ)⌋).toNat = 1 := by
    norm_num [c4rand2]
  rw [hidx]
  rw [show ([(⟨255,255,255⟩ : RgbV ℝ), ⟨0,0,0⟩].getD 1 ⟨0, 0, 0⟩) = ⟨0,0,0⟩ from rfl]
  rw [c4seed2]
  rw [show (50:ℕ) = 49 + 1 from rfl,
    kmeansLoop_stop _ _ _ (by rw [c4kstep2]), c4kstep2]
  norm_num [jsSortWeightDesc, List.foldl, stableInsertWeightDesc, List.filter]

/-- Dominant clusters of the first run's perception. -/
theorem c4dom1 :
    (analyzePerception "balanced" "universal" c4img c4rand1).colors.dominantClusters =
      [⟨⟨255,255,255⟩, [⟨255,255,255⟩], 1/2⟩, ⟨⟨0,0,0⟩, [⟨0,0,0⟩], 1/2⟩] := by
  have h1 : (analyzePerception "balanced" "universal" c4img c4rand1).colors =
      analyzeColors c4rand1 c4data 16 16 := rfl
  rw [h1]
  simp only [analyzeColors, c4samplesN]
  norm_num [toRgbR, c4cluster1]

/-- Dominant clusters of the second run's perception. -/
theorem c4dom2 :
    (analyzePerception "balanced" "universal" c4img c4rand2).colors.dominantClusters =
      [⟨⟨0,0,0⟩, [⟨0,0,0⟩], 1/2⟩, ⟨⟨255,255,255⟩, [⟨255,255,255⟩], 1/2⟩] := by
  have h1 : (analyzePerception "balanced" "universal" c4img c4rand2).colors =
      analyzeColors c4rand2 c4data 16 16 := rfl
  rw [h1]
  simp only [analyzeColors, c4samplesN]
  norm_num [toRgbR, c4cluster2]

/-- The first run classifies the lighting as `bright` (dominant cluster
white, brightness `1 > 0.8`), for every emotion input. -/
theorem c4light1 (e : Emotion ℝ) :
    classifyLighting (applyCulturalLens "universal"
      (analyzePerception "balanced" "universal" c4img c4rand1) e).colors = "bright" := by
  simp only [classifyLighting, applyCulturalLens, c4dom1, List.map]
  norm_num

/-- The second run classifies the lighting as `dark` (dominant cluster black,
brightness `0 < 0.2`), for every emotion input. -/
theorem c4light2 (e : Emotion ℝ) :
    classifyLighting (applyCulturalLens "universal"
      (analyzePerception "balanced" "universal" c4img c4rand2) e).colors = "dark" := by
  simp only [classifyLighting, applyCulturalLens, c4dom2, List.map]
  norm_num

/-- The first run succeeds and its code carries the `bright` symbol `K` at
index 1. -/
theorem c4code1_shape : ∃ s t, Except.map Prod.fst c4run1 = .ok (s :: 'K' :: t) := by
  simp only [c4run1, encode]
  rw [if_neg (by decide : ¬ (c4img.width = 0 ∨ c4img.height = 0))]
  rw [if_neg (by decide : ¬ (c4img.width < 16 ∨ c4img.height < 16))]
  rw [encodeToSymbols_ok "balanced" ⟨26, 4, 12, 6, 4⟩ rfl]
  dsimp only
  simp only [Except.map, addReedSolomonErrorCorrection, encodeSceneContext]
  rw [if_pos (by norm_num : (3:ℕ) < 4)]
  rw [c4light1]
  rw [show getSymbol "light" "bright" = 'K' from by decide]
  simp only [List.cons_append, List.nil_append]
  exact ⟨_, _, rfl⟩

/-- The second run succeeds and its code carries the `dark` symbol `O` at
index 1. -/
theorem c4code2_shape : ∃ s t, Except.map Prod.fst c4run2 = .ok (s :: 'O' :: t) := by
  simp only [c4run2, encode]
  rw [if_neg (by decide : ¬ (c4img.width = 0 ∨ c4img.height = 0))]
  rw [if_neg (by decide : ¬ (c4img.width < 16 ∨ c4img.height < 16))]
  rw [encodeToSymbols_ok "balanced" ⟨26, 4, 12, 6, 4⟩ rfl]
  dsimp only
  simp only [Except.map, addReedSolomonErrorCorrection, encodeSceneContext]
  rw [if_pos (by norm_num : (3:ℕ) < 4)]
  rw [c4light2]
  rw [show getSymbol "light" "dark" = 'O' from by decide]
  simp only [List.cons_append, List.nil_append]
  exact ⟨_, _, rfl⟩

/-- C4: refuted as stated.  Encoding is not a function of image, context,
mode and culture alone: on the 16×16 two-pixel image `c4img`, two successive
`encode` calls with identical image, empty context, mode `balanced` and
culture `universal` — differing only in their `Math.random()` draws (first
draw `0` versus `1/2`), which seed the k-means++ color clustering — both
succeed and return different code strings: the first run's dominant cluster
is the white pixel (lighting `bright`, symbol `K` at code index 1), the
second run's the black pixel (lighting `dark`, symbol `O`). -/
theorem encode_two_runs_differ :
    (Except.toOption c4run1).isSome = true ∧ (Except.toOption c4run2).isSome = true ∧
    Except.map Prod.fst c4run1 ≠ Except.map Prod.fst c4run2 := by
  obtain ⟨s1, t1, h1⟩ := c4code1_shape
  obtain ⟨s2, t2, h2⟩ := c4code2_shape
  refine ⟨?_, ?_, ?_⟩
  · cases hr : c4run1 with
    | error e => rw [hr] at h1; simp [Except.map] at h1
    | ok v => rfl
  · cases hr : c4run2 with
    | error e => rw [hr] at h2; simp [Except.map] at h2
    | ok v => rfl
  · rw [h1, h2]
    intro h
    injection h with hc
    injection hc with hs hrest
    injection hrest with hKO ht
    exact absurd hKO (by decide)

/-- C4 (amended): determinism holds relative to the runtime randomness and
encoder state: `encode` is a pure function of mode, culture, image, context,
the `Math.random()` draw stream, the clock and the emotional buffer, so two
calls agreeing on all of these — in particular on pointwise-equal random
streams — return identical results, and in particular identical codes. -/
theorem encode_deterministic_given_randomness (mode culture : String)
    (img : ImageData) (ctx : EncodeContext) (r1 r2 : ℕ → ℝ) (now : ℕ)
    (buffer : List BufferEntry) (h : ∀ n, r1 n = r2 n) :
    encode mode culture img ctx r1 now buffer =
      encode mode culture img ctx r2 now buffer := by
  rw [funext h]

/-- Witness: the amended determinism theorem applied to the concrete image
and two syntactically different but pointwise-equal random streams. -/
theorem encode_deterministic_given_randomness_witness :
    (∀ n : ℕ, c4rand1 n = (fun n => if n = 0 then (0:ℝ) else 1/2) n) ∧
    encode "balanced" "universal" c4img ⟨none⟩ c4rand1 0 [] =
      encode "balanced" "universal" c4img ⟨none⟩
        (fun n => if n = 0 then (0:ℝ) else 1/2) 0 [] :=
  ⟨fun _ => rfl,
   encode_deterministic_given_randomness "balanced" "universal" c4img ⟨none⟩
     c4rand1 (fun n => if n = 0 then (0:ℝ) else 1/2) 0 [] (fun _ => rfl)⟩

end SymbolicCompression
